import Mathlib

/-!
Verification development for the sam-smith SAM-template mutation engine
(lib/test-utils.js and lib/generator.js).  The template-mutation operations
are embedded shallowly: each JavaScript function that rewrites the
template.yaml buffer is translated to a pure Lean function from the template
content (a string, or its line array) to the new content.  File-system side
effects (reading and writing the file, copying source folders) are elided;
the embedded functions are exactly the text transformations the source
applies between the read and the write.

Strings are processed through their character lists so that every definition
is executable by the kernel.  Apostrophes and braces occurring in YAML text
are written with \x27 / \x7b / \x7d escapes.
-/

set_option autoImplicit false
set_option maxRecDepth 100000

/-- Decidable equality on Except, needed to evaluate the result of the
fallible operations. -/
instance {α β : Type} [DecidableEq α] [DecidableEq β] : DecidableEq (Except α β) := fun a b =>
  match a, b with
  | .ok x, .ok y =>
    if h : x = y then .isTrue (by rw [h]) else .isFalse (fun hh => h (by cases hh; rfl))
  | .error x, .error y =>
    if h : x = y then .isTrue (by rw [h]) else .isFalse (fun hh => h (by cases hh; rfl))
  | .ok _, .error _ => .isFalse (fun hh => by cases hh)
  | .error _, .ok _ => .isFalse (fun hh => by cases hh)

namespace SamSmith

/-- Character class [a-zA-Z0-9] used by the resource-name patterns. -/
def isAlnumChar (c : Char) : Bool :=
  (('a' ≤ c) && (c ≤ 'z')) || (('A' ≤ c) && (c ≤ 'Z')) || (('0' ≤ c) && (c ≤ '9'))

/-- Character class \w = [a-zA-Z0-9_] used by the RestApiId capture. -/
def isWordChar (c : Char) : Bool :=
  isAlnumChar c || (c = '_')

/-- Whitespace class \s of JavaScript regexes (restricted to the characters
that occur in the documents handled here). -/
def isWsChar (c : Char) : Bool :=
  (c = ' ') || (c = '\t') || (c = '\n') || (c = '\x0d')

/-- ASCII lower-casing of a character, for method.toLowerCase(). -/
def lowerChar (c : Char) : Char :=
  if ('A' ≤ c) && (c ≤ 'Z') then Char.ofNat (c.toNat + 32) else c

/-- ASCII lower-casing of a string. -/
def strLower (s : String) : String :=
  ⟨s.data.map lowerChar⟩

/-- Test that pat is a prefix of cs. -/
def isPrefixCh : List Char → List Char → Bool
  | [], _ => true
  | _ :: _, [] => false
  | p :: ps, c :: cs => (p = c) && isPrefixCh ps cs

/-- String-level prefix test built on the character lists. -/
def startsWithS (s pat : String) : Bool :=
  isPrefixCh pat.data s.data

/-- Substring containment test (JavaScript String.prototype.includes). -/
def containsCh (cs pat : List Char) : Bool :=
  match cs with
  | [] => isPrefixCh pat []
  | _ :: rest => isPrefixCh pat cs || containsCh rest pat

/-- String-level substring containment. -/
def containsS (s pat : String) : Bool :=
  containsCh s.data pat.data

/-- Index of the first occurrence of pat in cs (String.prototype.indexOf). -/
def indexOfCh : List Char → List Char → Option Nat
  | [], pat => if isPrefixCh pat [] then some 0 else none
  | c :: rest, pat =>
    if isPrefixCh pat (c :: rest) then some 0
    else match indexOfCh rest pat with
      | some i => some (i + 1)
      | none => none

/-- Auxiliary scan for lastIndexOfCh, remembering the best match so far. -/
def lastIndexOfChAux (pat : List Char) : List Char → Nat → Option Nat → Option Nat
  | [], _, best => best
  | c :: rest, i, best =>
    lastIndexOfChAux pat rest (i + 1) (if isPrefixCh pat (c :: rest) then some i else best)

/-- Index of the last occurrence of pat in cs (String.prototype.lastIndexOf). -/
def lastIndexOfCh (cs pat : List Char) : Option Nat :=
  lastIndexOfChAux pat cs 0 none

/-- Split a character list on newline characters, keeping empty segments,
exactly like JavaScript content.split(String.fromCharCode 10). -/
def splitLinesCh (cs : List Char) : List (List Char) :=
  cs.foldr
    (fun c acc =>
      if c = '\n' then [] :: acc
      else match acc with
        | h :: t => (c :: h) :: t
        | [] => [[c]])
    [[]]

/-- Join character-list lines with newline separators
(Array.prototype.join applied with a newline). -/
def joinCh : List (List Char) → List Char
  | [] => []
  | [l] => l
  | l :: rest => l ++ '\n' :: joinCh rest

/-- Split a string into its lines (content.split on a newline keeps empty
trailing segments, so a trailing newline yields a final empty line). -/
def splitLines (s : String) : List String :=
  (splitLinesCh s.data).map (fun cs => ⟨cs⟩)

/-- Join lines back into a string with newline separators. -/
def joinLines (ls : List String) : String :=
  ⟨joinCh (ls.map (fun l => l.data))⟩

/-- Array.prototype.splice deletion: remove n elements starting at index i. -/
def spliceRm {α : Type} (ls : List α) (i n : Nat) : List α :=
  ls.take i ++ ls.drop (i + n)

/-- Array.prototype.splice insertion: insert the given elements at index i. -/
def spliceIns {α : Type} (ls : List α) (i : Nat) (xs : List α) : List α :=
  ls.take i ++ xs ++ ls.drop i

/-- Collapse runs of three or more newlines to exactly two, the global
replacement of three-or-more newlines performed by the cleanup steps.
The auxiliary carries the number of pending newline characters. -/
def collapseNlAux : List Char → Nat → List Char
  | [], pending => List.replicate (min pending 2) '\n'
  | c :: rest, pending =>
    if c = '\n' then collapseNlAux rest (pending + 1)
    else List.replicate (min pending 2) '\n' ++ c :: collapseNlAux rest 0

/-- Collapse runs of three or more newlines to two, on full strings. -/
def collapseNl (s : String) : String :=
  ⟨collapseNlAux s.data 0⟩

/-- Remove trailing whitespace (String.prototype.trimEnd). -/
def trimEndCh (cs : List Char) : List Char :=
  (cs.reverse.dropWhile (fun c => isWsChar c)).reverse

/-- Remove leading and trailing whitespace (String.prototype.trim). -/
def trimCh (cs : List Char) : List Char :=
  trimEndCh (cs.dropWhile (fun c => isWsChar c))

/-- String-level trim. -/
def trimS (s : String) : String :=
  ⟨trimCh s.data⟩

/-- String-level trimEnd. -/
def trimEndS (s : String) : String :=
  ⟨trimEndCh s.data⟩

/-!
Line-pattern matchers.  Each one embeds a JavaScript regular expression used
by lib/test-utils.js against a single line of the document.
-/

/-- Capture of the resource-header pattern, two spaces then one or more
alphanumeric characters then a colon, anchored at line start
(regex caret, two spaces, a captured [a-zA-Z0-9]+ group, colon):
returns the captured name when the line matches. -/
def resHeaderName? (l : String) : Option String :=
  match l.data with
  | ' ' :: ' ' :: rest =>
    let name := rest.takeWhile (fun c => isAlnumChar c)
    if name.isEmpty then none
    else match rest.drop name.length with
      | ':' :: _ => some ⟨name⟩
      | _ => none
  | _ => none

/-- Boolean form of the resource-header pattern. -/
def isResHeader (l : String) : Bool :=
  (resHeaderName? l).isSome

/-- Line starts with a lowercase or uppercase letter (regex caret then
[a-zA-Z]), used by the Outputs-block end scan of deleteApiGateway. -/
def startsWithLetter (l : String) : Bool :=
  match l.data with
  | c :: _ => (('a' ≤ c) && (c ≤ 'z')) || (('A' ≤ c) && (c ≤ 'Z'))
  | [] => false

/-- Pattern whitespace-plus then the literal Events: then trailing
whitespace to end of line (one-or-more leading whitespace is required). -/
def isEventsLine (l : String) : Bool :=
  match l.data.dropWhile (fun c => isWsChar c) with
  | t =>
    (l.data.takeWhile (fun c => isWsChar c)).length > 0 &&
    isPrefixCh "Events:".data t &&
    ((t.drop 7).all (fun c => isWsChar c))

/-- Pattern whitespace-plus then the literal Metadata: (rest of the line is
unconstrained). -/
def isMetadataLine (l : String) : Bool :=
  let t := l.data.dropWhile (fun c => isWsChar c)
  (l.data.takeWhile (fun c => isWsChar c)).length > 0 &&
  isPrefixCh "Metadata:".data t

/-- Pattern whitespace-plus then the literal Auth: (rest unconstrained). -/
def isAuthLine (l : String) : Bool :=
  let t := l.data.dropWhile (fun c => isWsChar c)
  (l.data.takeWhile (fun c => isWsChar c)).length > 0 &&
  isPrefixCh "Auth:".data t

/-- Pattern whitespace-plus then StageName: (rest unconstrained). -/
def isStageNameLine (l : String) : Bool :=
  let t := l.data.dropWhile (fun c => isWsChar c)
  (l.data.takeWhile (fun c => isWsChar c)).length > 0 &&
  isPrefixCh "StageName:".data t

/-- Event-binding header pattern: exactly eight spaces, a captured
alphanumeric name, a colon, then only trailing whitespace.  Returns the
captured name. -/
def eventName? (l : String) : Option String :=
  match l.data with
  | ' ' :: ' ' :: ' ' :: ' ' :: ' ' :: ' ' :: ' ' :: ' ' :: rest =>
    let name := rest.takeWhile (fun c => isAlnumChar c)
    if name.isEmpty then none
    else match rest.drop name.length with
      | ':' :: tail => if tail.all (fun c => isWsChar c) then some ⟨name⟩ else none
      | _ => none
  | _ => none

/-- Architecture list-item pattern: whitespace-plus, a dash and space, then
exactly arm64 or x86_64 to end of line.  Returns the architecture. -/
def archItem? (l : String) : Option String :=
  let ws := l.data.takeWhile (fun c => isWsChar c)
  let t := l.data.dropWhile (fun c => isWsChar c)
  if ws.length > 0 && t = "- arm64".data then some "arm64"
  else if ws.length > 0 && t = "- x86_64".data then some "x86_64"
  else none

/-- Unanchored search for RestApiId: then optional whitespace, the literal
bang-Ref, whitespace, and a captured word; mirrors the RestApiId capture
regex of deleteApiGateway.  Returns the captured resource name. -/
def restApiRef? (l : String) : Option String :=
  let rec go : List Char → Option String
    | [] => none
    | c :: rest =>
      if isPrefixCh "RestApiId:".data (c :: rest) then
        let t1 := ((c :: rest).drop 10).dropWhile (fun x => isWsChar x)
        if isPrefixCh "!Ref".data t1 then
          let t2 := t1.drop 4
          let ws := t2.takeWhile (fun x => isWsChar x)
          let w := (t2.drop ws.length).takeWhile (fun x => isWordChar x)
          if ws.length > 0 && w.length > 0 then some ⟨w⟩ else go rest
        else go rest
      else go rest
  go l.data

/-- Exactly six whitespace characters followed by a non-whitespace character
(the indentation-fence pattern of the Auth and Environment block scans),
and not eight leading whitespace characters. -/
def isSixIndentFence (l : String) : Bool :=
  match l.data with
  | a :: b :: c :: d :: e :: f :: g :: _ =>
    isWsChar a && isWsChar b && isWsChar c && isWsChar d && isWsChar e && isWsChar f &&
    !(isWsChar g)
  | _ => false

/-- Normalization applied to every supplied gateway name: delete every
character that is not a letter or a digit (the global replacement of
non-alphanumeric characters with the empty string). -/
def sanitizeName (s : String) : String :=
  ⟨s.data.filter (fun c => isAlnumChar c)⟩

/-!
Resource-block locators.  Two loop shapes occur in the source: a plain scan
over all lines (deleteLambda, add/update/delete endpoint, the gateway step
of deleteApiGateway), and a Resources/Outputs-aware scan (addBasicAuth,
removeBasicAuth, deleteLayer).
-/

/-- Plain resource-locator loop: iterate over all lines; on a header whose
name equals the target set start (overwriting), on any other header after a
start was found set the end and stop.  The end is returned as an option so
that each caller can apply its own fall-through for the minus-one case
(usually the document length). -/
def findBlockAux (name : String) : List String → Nat → Option Nat → Option (Nat × Option Nat)
  | [], _, some s => some (s, none)
  | [], _, none => none
  | l :: rest, i, st =>
    match resHeaderName? l with
    | some nm =>
      if nm = name then findBlockAux name rest (i + 1) (some i)
      else match st with
        | some s => some (s, some i)
        | none => findBlockAux name rest (i + 1) none
    | none => findBlockAux name rest (i + 1) st

/-- Locate a resource block with the plain loop. -/
def findBlock (lines : List String) (name : String) : Option (Nat × Option Nat) :=
  findBlockAux name lines 0 none

/-- Variant locator loop used by the referenced-elsewhere check of
removeBasicAuth: on a header line the end-check runs before the name-check,
and there is no Resources/Outputs awareness. -/
def findBlockEndFirstAux (name : String) :
    List String → Nat → Option Nat → Option (Nat × Option Nat)
  | [], _, some s => some (s, none)
  | [], _, none => none
  | l :: rest, i, st =>
    match resHeaderName? l with
    | some nm =>
      (match st with
        | some s => some (s, some i)
        | none =>
          if nm = name then findBlockEndFirstAux name rest (i + 1) (some i)
          else findBlockEndFirstAux name rest (i + 1) none)
    | none => findBlockEndFirstAux name rest (i + 1) st

/-- Locate a resource block with the end-check-first loop. -/
def findBlockEndFirst (lines : List String) (name : String) : Option (Nat × Option Nat) :=
  findBlockEndFirstAux name lines 0 none

/-- Resources/Outputs-aware locator loop: lines before the Resources: header
are ignored, the scan stops at an Outputs: header (using it as the end when
a start was already found, otherwise failing), and otherwise behaves like
the plain loop with the end-check performed before the name-check. -/
def findBlockROAux (name : String) :
    List String → Nat → Bool → Option Nat → Option (Nat × Option Nat)
  | [], _, _, some s => some (s, none)
  | [], _, _, none => none
  | l :: rest, i, inRes, st =>
    if startsWithS l "Resources:" then findBlockROAux name rest (i + 1) true st
    else if startsWithS l "Outputs:" then
      match st with
      | some s => some (s, some i)
      | none => none
    else if inRes then
      match resHeaderName? l with
      | some nm =>
        (match st with
          | some s => some (s, some i)
          | none =>
            if nm = name then findBlockROAux name rest (i + 1) inRes (some i)
            else findBlockROAux name rest (i + 1) inRes none)
      | none => findBlockROAux name rest (i + 1) inRes st
    else findBlockROAux name rest (i + 1) inRes st

/-- Locate a resource block with the Resources/Outputs-aware loop. -/
def findBlockRO (lines : List String) (name : String) : Option (Nat × Option Nat) :=
  findBlockROAux name lines 0 false none

/-!
Small index utilities shared by the operation embeddings.
-/

/-- Index of the first element satisfying p. -/
def firstIdxP {α : Type} (p : α → Bool) : List α → Option Nat
  | [] => none
  | x :: rest =>
    if p x then some 0
    else match firstIdxP p rest with
      | some i => some (i + 1)
      | none => none

/-- Index of the first element at position k or later satisfying p. -/
def firstIdxFrom {α : Type} (ls : List α) (k : Nat) (p : α → Bool) : Option Nat :=
  (firstIdxP p (ls.drop k)).map (fun i => k + i)

/-- Index of the first element in [s, e) satisfying p. -/
def firstIdxInRange {α : Type} (ls : List α) (s e : Nat) (p : α → Bool) : Option Nat :=
  (firstIdxP p ((ls.drop s).take (e - s))).map (fun i => s + i)

/-- Index of the last element satisfying p. -/
def lastIdxPAux {α : Type} (p : α → Bool) : List α → Nat → Option Nat → Option Nat
  | [], _, best => best
  | x :: rest, i, best => lastIdxPAux p rest (i + 1) (if p x then some i else best)

/-- Last index satisfying p, or none. -/
def lastIdxP {α : Type} (p : α → Bool) (ls : List α) : Option Nat :=
  lastIdxPAux p ls 0 none

/-- Any element of the slice [s, e) satisfies p. -/
def sliceAny (lines : List String) (s e : Nat) (p : String → Bool) : Bool :=
  ((lines.drop s).take (e - s)).any p

/-- Read a line by index, with the empty string standing in for the
undefined value JavaScript yields past the end of the array (every pattern
used on such reads fails on the empty string, matching the undefined
guards of the source). -/
def getLine (lines : List String) (i : Nat) : String :=
  lines.getD i ""

/-!
Endpoint machinery: the Events-section scan and event insertion shared by
addApiGatewayEndpointProgrammatically and the endpoint step of
createApiGatewayProgrammatically (the source duplicates this logic inline;
the two copies are identical, so one embedding serves both).
-/

/-- Scan of a Lambda block for its Events: line, its Metadata: line and the
count of event-binding headers: per line, first record an Events: match,
then stop at a Metadata: match, then count an event-header match whose name
is neither Type nor Properties.  The scan runs over the block window and
carries the absolute line index. -/
def scanEventsAux : List String → Nat → Option Nat → Nat → (Option Nat × Option Nat × Nat)
  | [], _, ev, c => (ev, none, c)
  | l :: rest, i, ev, c =>
    let ev2 := if isEventsLine l then some i else ev
    if isMetadataLine l then (ev2, some i, c)
    else
      let c2 := match eventName? l with
        | some nm => if nm = "Type" || nm = "Properties" then c else c + 1
        | none => c
      scanEventsAux rest (i + 1) ev2 c2

/-- Run the Events scan over the window [s, e) of the document lines. -/
def scanEvents (lines : List String) (s e : Nat) : Option Nat × Option Nat × Nat :=
  scanEventsAux ((lines.drop s).take (e - s)) s none 0

/-- Lines of a freshly generated event binding. -/
def newEventBlock (name r p m : String) : List String :=
  ["        " ++ name ++ ":",
   "          Type: Api",
   "          Properties:",
   "            RestApiId: !Ref " ++ r,
   "            Path: " ++ p,
   "            Method: " ++ strLower m]

/-- Core of the endpoint insertion: locate the Lambda, scan its block, name
the new event from the count, and splice it under the Events: line, or
together with a fresh Events: wrapper before Metadata:, or nowhere when
neither line exists.  Errors exactly when the Lambda is missing. -/
def insertEventCore (lines : List String) (resourceName m p lambdaName : String) :
    Except String (List String) :=
  let functionName := lambdaName ++ "Function"
  match findBlock lines functionName with
  | none => .error ("Lambda " ++ functionName ++ " not found")
  | some (s, endOpt) =>
    let e := endOpt.getD lines.length
    let scanned := scanEvents lines s e
    let newEventName := "event" ++ toString (scanned.2.2 + 1)
    let blk := newEventBlock newEventName resourceName p m
    let lines2 :=
      match scanned.1 with
      | some ev => spliceIns lines (ev + 1) blk
      | none =>
        match scanned.2.1 with
        | some md => spliceIns lines md ("      Events:" :: blk)
        | none => lines
    .ok lines2

/-- Template transform of addApiGatewayEndpointProgrammatically: split the
document, normalize the gateway name, insert the event, join.  File I/O is
elided. -/
def addApiGatewayEndpointProgrammatically (doc gatewayName m p lambdaName : String) :
    Except String String :=
  let lines := splitLines doc
  let resourceName := sanitizeName gatewayName
  (insertEventCore lines resourceName m p lambdaName).map joinLines

/-- YAML block of a new Api resource (a single multi-line string element,
spliced into the line array exactly as the source does, including the
trailing newline). -/
def apiGatewayYaml (r : String) : String :=
  "  " ++ r ++ ":\n" ++
  "    Type: AWS::Serverless::Api\n" ++
  "    Properties:\n" ++
  "      Name: !Sub $\x7bAWS::StackName\x7d-" ++ r ++ "\n" ++
  "      StageName: default\n" ++
  "      Cors:\n" ++
  "        AllowOrigin: \"\x27*\x27\"\n" ++
  "        AllowHeaders: \"\x27Content-Type,Authorization\x27\"\n" ++
  "        AllowMethods: \"\x27GET,POST,PUT,DELETE,OPTIONS\x27\"\n"

/-- Output entry paired with a new Api resource (single multi-line string,
no trailing newline). -/
def apiOutputYaml (r : String) : String :=
  "  " ++ r ++ "Url:\n" ++
  "    Description: \"API Gateway endpoint URL\"\n" ++
  "    Value: !Sub \"https://$\x7b" ++ r ++ "\x7d.execute-api.$\x7bAWS::Region\x7d.amazonaws.com/default/\""

/-- Template transform of createApiGatewayProgrammatically: insert the Api
resource before the Outputs: header (or append it), insert the paired Url
output right after the Outputs: header (or create the Outputs section), and
optionally add one endpoint to a Lambda via the shared endpoint core (the
source re-reads the just-written file for that step, hence the join/split
in between).  When the endpoint step fails the gateway insertion has
already been persisted by the source; the error is surfaced here. -/
def createApiGatewayProgrammatically (doc gatewayName : String)
    (endpoint : Option (String × String × String)) : Except String String :=
  let lines := splitLines doc
  let resourceName := sanitizeName gatewayName
  let yaml := apiGatewayYaml resourceName
  let lines1 :=
    match firstIdxP (fun l => startsWithS l "Outputs:") lines with
    | none => lines ++ [yaml]
    | some i => spliceIns lines i [yaml]
  let outputYaml := apiOutputYaml resourceName
  let lines2 :=
    match firstIdxP (fun l => startsWithS l "Outputs:") lines1 with
    | some o => spliceIns lines1 (o + 1) [outputYaml]
    | none => lines1 ++ ["", "Outputs:", outputYaml]
  let doc1 := joinLines lines2
  match endpoint with
  | none => .ok doc1
  | some (m, p, lambdaName) =>
    (insertEventCore (splitLines doc1) resourceName m p lambdaName).map joinLines

/-!
Embedding of deleteApiGatewayProgrammatically.
-/

/-- Pattern whitespace-plus then the literal Events: with the rest of the
line unconstrained (the wrapper re-check of deleteApiGateway omits the
end-of-line anchor). -/
def isEventsPrefixLine (l : String) : Bool :=
  let t := l.data.dropWhile (fun c => isWsChar c)
  (l.data.takeWhile (fun c => isWsChar c)).length > 0 &&
  isPrefixCh "Events:".data t

/-- Stable descending sort by a numeric key, matching the JavaScript sort
with comparator subtracting start indices (equal keys keep their original
order). -/
def insertDescBy {α : Type} (key : α → Nat) (x : α) : List α → List α
  | [] => [x]
  | y :: rest => if key x ≤ key y then y :: insertDescBy key x rest else x :: y :: rest

/-- Stable descending insertion sort. -/
def sortDescBy {α : Type} (key : α → Nat) (ls : List α) : List α :=
  ls.foldl (fun acc x => insertDescBy key x acc) []

/-- Collect the (start, end) pairs of every Function block: walk the lines
tracking the most recent resource header; on a line containing the literal
Function type, record start = index of the previous line and end = the next
resource-header line (or the document length). -/
def collectLambdaBlocks (lines : List String) : List (Nat × Nat) :=
  let rec go : List String → Nat → Option String → List (Nat × Nat)
    | [], _, _ => []
    | l :: rest, i, cur =>
      let cur2 := match resHeaderName? l with
        | some nm => some nm
        | none => cur
      if cur2.isSome && containsS l "Type: AWS::Serverless::Function" then
        let e := (firstIdxFrom lines (i + 1) (fun x => isResHeader x)).getD lines.length
        (i - 1, e) :: go rest (i + 1) cur2
      else go rest (i + 1) cur2
  go lines 0 none

/-- Scan of one Lambda block collecting its Events: line index and the
positions of its event bindings with their RestApiId references.  Per line:
an Events: match records the index and enters the events section (and skips
the rest of the checks); inside the section a Metadata: match flushes the
pending event and stops; an event header flushes the pending event and
starts a new one with a cleared reference; a RestApiId capture updates the
pending reference.  A pending event at the end of the block is dropped,
exactly as in the source. -/
def scanLambdaEventsAux :
    List String → Nat → Bool → Option Nat → Option Nat → Option String →
    List (Nat × Nat × Option String) → (Option Nat × List (Nat × Nat × Option String))
  | [], _, _, evLine, _, _, acc => (evLine, acc)
  | l :: rest, i, inEv, evLine, curStart, curRef, acc =>
    if isEventsLine l then
      scanLambdaEventsAux rest (i + 1) true (some i) curStart curRef acc
    else if inEv && isMetadataLine l then
      (evLine, acc ++ (match curStart with
        | some s => [(s, i, curRef)]
        | none => []))
    else if inEv then
      match eventName? l with
      | some nm =>
        if nm ≠ "Type" && nm ≠ "Properties" then
          let acc2 := acc ++ (match curStart with
            | some s => [(s, i, curRef)]
            | none => [])
          let ref2 := restApiRef? l
          scanLambdaEventsAux rest (i + 1) inEv evLine (some i) ref2 acc2
        else
          let ref2 := match restApiRef? l with
            | some w => some w
            | none => curRef
          scanLambdaEventsAux rest (i + 1) inEv evLine curStart ref2 acc
      | none =>
        let ref2 := match restApiRef? l with
          | some w => some w
          | none => curRef
        scanLambdaEventsAux rest (i + 1) inEv evLine curStart ref2 acc
    else scanLambdaEventsAux rest (i + 1) inEv evLine curStart curRef acc

/-- Remove from one Lambda block every event whose RestApiId references the
deleted gateway; when all recorded events were removed, also remove the
Events: wrapper line (re-checking that the line at the remembered index
still matches the Events prefix pattern). -/
def removeEventsForLambda (content : String) (r : String) (blk : Nat × Nat) : String :=
  let lines := splitLines content
  let window := (lines.drop blk.1).take (blk.2 - blk.1)
  let scanned := scanLambdaEventsAux window blk.1 false none none none []
  let evLine := scanned.1
  let positions := scanned.2
  let toRemove := positions.filter (fun ep => ep.2.2 = some r)
  let lines2 := (sortDescBy (fun ep => ep.1) toRemove).foldl
    (fun acc ep => spliceRm acc ep.1 (ep.2.1 - ep.1)) lines
  let lines3 :=
    if toRemove.length > 0 && positions.length = toRemove.length then
      match evLine with
      | some k =>
        if getLine lines2 k ≠ "" && isEventsPrefixLine (getLine lines2 k) then
          spliceRm lines2 k 1
        else lines2
      | none => lines2
    else lines2
  joinLines lines3

/-- Collect the Outputs entries to delete: for every line containing the
interpolation or the bang-Ref of the gateway, walk back to the nearest
resource-header line and forward to the next header or top-level line, and
record that range (duplicates are recorded as in the source). -/
def collectOutputsToDelete (lines : List String) (r : String) : List (Nat × Nat) :=
  let rec go : List String → Nat → List (Nat × Nat)
    | [], _ => []
    | l :: rest, i =>
      if containsS l ("$\x7b" ++ r ++ "\x7d") || containsS l ("!Ref " ++ r) then
        match lastIdxP (fun x => isResHeader x) (lines.take (i + 1)) with
        | some j =>
          let oe := (firstIdxFrom lines (j + 1)
            (fun x => isResHeader x || startsWithLetter x)).getD lines.length
          (j, oe) :: go rest (i + 1)
        | none => go rest (i + 1)
      else go rest (i + 1)
  go lines 0

/-- Template transform of deleteApiGatewayProgrammatically: remove every
event referencing the gateway from every Function block (block positions
computed once up front, the line array re-split per Function), then remove
the gateway resource (its end falling back to the Outputs: header or the
document length when no later resource-header line exists), then remove
every Outputs entry referencing the gateway, then collapse blank runs and
trim the end. -/
def deleteApiGatewayProgrammatically (doc gatewayName : String) : String :=
  let resourceName := sanitizeName gatewayName
  let lines0 := splitLines doc
  let blocks := collectLambdaBlocks lines0
  let content1 := blocks.foldl (fun c blk => removeEventsForLambda c resourceName blk) doc
  let lines := splitLines content1
  let lines3 :=
    match findBlock lines resourceName with
    | none => lines
    | some (s, endOpt) =>
      let e := match endOpt with
        | some e => e
        | none =>
          (firstIdxFrom lines s (fun l => startsWithS l "Outputs:")).getD lines.length
      spliceRm lines s (e - s)
  let outs := collectOutputsToDelete lines3 resourceName
  let lines4 := (sortDescBy (fun o => o.1) outs).foldl
    (fun acc o => spliceRm acc o.1 (o.2 - o.1)) lines3
  trimEndS (collapseNl (joinLines lines4)) ++ "\n"

/-!
Embedding of updateApiGatewayEndpointProgrammatically.
-/

/-- Keep elements up to and including the first one satisfying p (the inner
look-ahead window of the update operation checks its three substrings on
each line before breaking on an event-header line, so the breaking line is
still inspected). -/
def takeThrough {α : Type} (p : α → Bool) : List α → List α
  | [] => []
  | x :: rest => if p x then [x] else x :: takeThrough p rest

/-- Locate the event binding of the update or delete-endpoint operations:
for each event header in the Lambda block, inspect at most the next nine
lines (stopping after a following event header) for the method, path and
RestApiId substrings; on success the range runs to the next event header or
Metadata: line, or to the block end. -/
def findEventToDelete (lines : List String) (s e : Nat) (r m p : String) :
    Option (Nat × Nat) :=
  let rec go : List String → Nat → Option (Nat × Nat)
    | [], _ => none
    | l :: rest, i =>
      match eventName? l with
      | some nm =>
        if nm ≠ "Type" && nm ≠ "Properties" then
          let bound := min e (i + 10)
          let w := (lines.drop (i + 1)).take (bound - (i + 1))
          let w2 := takeThrough (fun x => (eventName? x).isSome) w
          let foundMethod := w2.any (fun x => containsS x ("Method: " ++ strLower m))
          let foundPath := w2.any (fun x => containsS x ("Path: " ++ p))
          let foundRef := w2.any (fun x => containsS x ("RestApiId: !Ref " ++ r))
          if foundMethod && foundPath && foundRef then
            let de := (firstIdxInRange lines (i + 1) e
              (fun x => (eventName? x).isSome || isMetadataLine x)).getD e
            some (i, de)
          else go rest (i + 1)
        else go rest (i + 1)
      | none => go rest (i + 1)
  go ((lines.drop s).take (e - s)) s

/-- Scan of a Lambda block after an event deletion: remember the Events:
line index and report whether any event header remains (stopping at the
first one). -/
def hasOtherEventsScan (lines : List String) (s e : Nat) : Option Nat × Bool :=
  let rec go : List String → Nat → Option Nat → Option Nat × Bool
    | [], _, evLine => (evLine, false)
    | l :: rest, i, evLine =>
      let ev2 := if isEventsLine l then some i else evLine
      match eventName? l with
      | some nm =>
        if nm ≠ "Type" && nm ≠ "Properties" then (ev2, true)
        else go rest (i + 1) ev2
      | none => go rest (i + 1) ev2
  go ((lines.drop s).take (e - s)) s none

/-- Template transform of updateApiGatewayEndpointProgrammatically: find
and delete the old event in the old Lambda (erroring when the Lambda or the
event is missing), remove the Events: wrapper when no event header remains,
then add the new event through addApiGatewayEndpointProgrammatically — the
operation is always delete-then-add, also when the old and new Lambda
coincide.  When the re-location of the old Lambda after the deletion fails
the source dereferences an undefined array slot and crashes; that path is
modelled as an error. -/
def updateApiGatewayEndpointProgrammatically
    (doc gatewayName oldMethod oldPath oldLambdaName newMethod newPath newLambdaName :
      String) : Except String String :=
  let resourceName := sanitizeName gatewayName
  let oldFunctionName := oldLambdaName ++ "Function"
  let lines := splitLines doc
  match findBlock lines oldFunctionName with
  | none => .error ("Lambda " ++ oldFunctionName ++ " not found")
  | some (s, endOpt) =>
    let e := endOpt.getD lines.length
    match findEventToDelete lines s e resourceName oldMethod oldPath with
    | none => .error ("Event not found: " ++ oldMethod ++ " " ++ oldPath)
    | some (ds, de) =>
      let lines1 := spliceRm lines ds (de - ds)
      let lines2 := splitLines (joinLines lines1)
      match findBlock lines2 oldFunctionName with
      | none => .error "TypeError: undefined line access"
      | some (s2, endOpt2) =>
        let e2 := endOpt2.getD lines2.length
        let scanned := hasOtherEventsScan lines2 s2 e2
        let lines3 :=
          if !scanned.2 then
            match scanned.1 with
            | some k => spliceRm lines2 k 1
            | none => lines2
          else lines2
        addApiGatewayEndpointProgrammatically (joinLines lines3)
          gatewayName newMethod newPath newLambdaName

/-!
Embeddings of deleteLambdaProgrammatically and deleteLayerProgrammatically.
-/

/-- Template transform of deleteLambdaProgrammatically: remove the Function
block located by the plain loop (its end defaulting to the document
length), then remove the LogGroup block the same way, then collapse runs of
three or more newlines.  No guard of any kind is performed: the blocks are
removed whenever found, regardless of how many Functions remain. -/
def deleteLambdaProgrammatically (doc lambdaName : String) : String :=
  let functionName := lambdaName ++ "Function"
  let logGroupName := functionName ++ "LogGroup"
  let lines := splitLines doc
  let lines1 :=
    match findBlock lines functionName with
    | some (s, endOpt) => spliceRm lines s (endOpt.getD lines.length - s)
    | none => lines
  let lines2 :=
    match findBlock lines1 logGroupName with
    | some (s, endOpt) => spliceRm lines1 s (endOpt.getD lines1.length - s)
    | none => lines1
  collapseNl (joinLines lines2)

/-- Template transform of deleteLayerProgrammatically: remove the layer
block located by the Resources/Outputs-aware loop whenever it is found; the
template is left unchanged when the layer is absent.  No check of any
Function Layers: list is performed before the removal. -/
def deleteLayerProgrammatically (doc layerName : String) : String :=
  let lines := splitLines doc
  match findBlockRO lines layerName with
  | some (s, endOpt) => joinLines (spliceRm lines s (endOpt.getD lines.length - s))
  | none => doc

/-!
Embeddings of the auth operations.
-/

/-- Architecture detected from the first architecture list item of the
document, defaulting to arm64. -/
def firstArch : List String → String
  | [] => "arm64"
  | l :: rest =>
    match archItem? l with
    | some a => a
    | none => firstArch rest

/-- YAML of the shared BasicAuthorizerFunction and its LogGroup (one
multi-line string element, with its trailing newline). -/
def authorizerFunctionYaml (arch : String) : String :=
  "  BasicAuthorizerFunction:\n" ++
  "    Type: AWS::Serverless::Function\n" ++
  "    Properties:\n" ++
  "      FunctionName: !Sub $\x7bAWS::StackName\x7d-BasicAuthorizerFunction\n" ++
  "      CodeUri: src/\n" ++
  "      Handler: authorizer/authorizer.basicAuthorizer\n" ++
  "      Runtime: nodejs20.x\n" ++
  "      Timeout: 60\n" ++
  "      Architectures:\n" ++
  "        - " ++ arch ++ "\n" ++
  "    Metadata:\n" ++
  "      BuildMethod: esbuild\n" ++
  "      BuildProperties:\n" ++
  "        Minify: false\n" ++
  "        Target: es2020\n" ++
  "        Sourcemap: true\n" ++
  "        EntryPoints:\n" ++
  "          - authorizer/authorizer.ts\n" ++
  "        External:\n" ++
  "          - aws-sdk\n" ++
  "\n" ++
  "  BasicAuthorizerFunctionLogGroup:\n" ++
  "    Type: AWS::Logs::LogGroup\n" ++
  "    Properties:\n" ++
  "      LogGroupName: !Sub \x27/aws/lambda/$\x7bBasicAuthorizerFunction\x7d\x27\n" ++
  "      RetentionInDays: 7\n"

/-- Lines of the Basic Auth block inserted after StageName:. -/
def basicAuthBlock : List String :=
  ["      Auth:",
   "        DefaultAuthorizer: BasicAuthorizer",
   "        Authorizers:",
   "          BasicAuthorizer:",
   "            FunctionPayloadType: REQUEST",
   "            FunctionArn: !GetAtt BasicAuthorizerFunction.Arn",
   "            Identity:",
   "              Headers:",
   "                - Key",
   "              ReauthorizeEvery: 0"]

/-- Template transform of addBasicAuthProgrammatically (the authorizer
source-folder copy is elided): when no line contains the literal
BasicAuthorizerFunction: header text, insert the shared authorizer YAML
before the Outputs: header (or append its trimmed form after a blank line);
then locate the Api resource with the Resources/Outputs-aware loop, and
only when no line of its block matches the Auth pattern, splice the Auth
block right after its StageName: line. -/
def addBasicAuthProgrammatically (doc gatewayName : String) : Except String String :=
  let lines := splitLines doc
  let hasAuthorizer := lines.any (fun l => containsS l "BasicAuthorizerFunction:")
  let lines1 :=
    if hasAuthorizer then lines
    else
      let yaml := authorizerFunctionYaml (firstArch lines)
      match firstIdxP (fun l => startsWithS l "Outputs:") lines with
      | none => lines ++ ["", trimS yaml]
      | some i => spliceIns lines i [yaml]
  let lines2 := splitLines (joinLines lines1)
  let resourceName := sanitizeName gatewayName
  match findBlockRO lines2 resourceName with
  | none => .error ("API Gateway " ++ resourceName ++ " not found")
  | some (s, endOpt) =>
    let e := endOpt.getD lines2.length
    let hasAuth := sliceAny lines2 s e (fun l => isAuthLine l)
    if hasAuth then .ok (joinLines lines2)
    else
      match firstIdxInRange lines2 s e (fun l => isStageNameLine l) with
      | none => .error "Could not find StageName in API Gateway"
      | some i => .ok (joinLines (spliceIns lines2 (i + 1) basicAuthBlock))

/-- Locator of the Properties: line of an Api resource used by
addCognitoAuth: after the Resources: header, remember whether the target
header was seen, and stop at the first four-space Properties: line once it
was (there is no Outputs: stop in this loop). -/
def findApiPropsAux (r : String) : List String → Nat → Bool → Bool → Option Nat
  | [], _, _, _ => none
  | l :: rest, i, inRes, started =>
    if startsWithS l "Resources:" then findApiPropsAux r rest (i + 1) true started
    else if inRes then
      let started2 := if resHeaderName? l = some r then true else started
      if started2 && startsWithS l "    Properties:" then some i
      else findApiPropsAux r rest (i + 1) inRes started2
    else findApiPropsAux r rest (i + 1) inRes started

/-- Lines of the Cognito Auth block inserted after the Api Properties:. -/
def cognitoAuthSection (userPoolName : String) : List String :=
  ["      Auth:",
   "        DefaultAuthorizer: CognitoAuthorizer",
   "        Authorizers:",
   "          CognitoAuthorizer:",
   "            UserPoolArn: !GetAtt " ++ userPoolName ++ ".Arn"]

/-- Lines of the new user pool and client resources. -/
def userPoolResource (userPoolName userPoolClientName : String) : List String :=
  ["  " ++ userPoolName ++ ":",
   "    Type: AWS::Cognito::UserPool",
   "    Properties:",
   "      UserPoolName: !Sub $\x7bAWS::StackName\x7d-" ++ userPoolName,
   "      AutoVerifiedAttributes:",
   "        - email",
   "      Policies:",
   "        PasswordPolicy:",
   "          MinimumLength: 8",
   "          RequireLowercase: true",
   "          RequireNumbers: true",
   "          RequireSymbols: true",
   "          RequireUppercase: true",
   "",
   "  " ++ userPoolClientName ++ ":",
   "    Type: AWS::Cognito::UserPoolClient",
   "    Properties:",
   "      ClientName: !Sub $\x7bAWS::StackName\x7d-" ++ userPoolClientName,
   "      UserPoolId: !Ref " ++ userPoolName,
   "      GenerateSecret: false",
   "      ExplicitAuthFlows:",
   "        - ALLOW_USER_PASSWORD_AUTH",
   "        - ALLOW_REFRESH_TOKEN_AUTH",
   "        - ALLOW_USER_SRP_AUTH",
   ""]

/-- Lines of the two Cognito outputs. -/
def cognitoOutputs (userPoolName userPoolClientName : String) : List String :=
  ["  " ++ userPoolName ++ "Id:",
   "    Description: \"Cognito User Pool ID\"",
   "    Value: !Ref " ++ userPoolName,
   "  " ++ userPoolClientName ++ "Id:",
   "    Description: \"Cognito User Pool Client ID\"",
   "    Value: !Ref " ++ userPoolClientName]

/-- Position scan of the Outputs section used by addCognitoAuth: starting
right after the Outputs: header, every resource-header line advances the
insertion position past its four-space-indented continuation lines. -/
def lastOutputEnd (lines : List String) (start : Nat) : Nat :=
  let rec go : List String → Nat → Nat → Nat
    | [], _, pos => pos
    | l :: rest, i, pos =>
      if isResHeader l then
        let j := (i + 1) +
          ((lines.drop (i + 1)).takeWhile (fun x => startsWithS x "    ")).length
        go rest (i + 1) j
      else go rest (i + 1) pos
  go (lines.drop (start + 1)) (start + 1) (start + 1)

/-- Template transform of addCognitoAuthProgrammatically: splice the Auth
block right after the Api Properties: line without any check for an
existing Auth: block, then insert the fresh user pool and client resources
before the Outputs: header (or at the end), then append the two outputs at
the end of the Outputs section (or create the section). -/
def addCognitoAuthProgrammatically (doc gatewayName poolName : String) :
    Except String String :=
  let lines := splitLines doc
  let resourceName := sanitizeName gatewayName
  let userPoolName := poolName ++ "UserPool"
  let userPoolClientName := poolName ++ "UserPoolClient"
  match findApiPropsAux resourceName lines 0 false false with
  | none => .error ("API Gateway " ++ resourceName ++ " not found")
  | some props =>
    let lines1 := spliceIns lines (props + 1) (cognitoAuthSection userPoolName)
    let lines2 := splitLines (joinLines lines1)
    let resourcesEnd :=
      (firstIdxP (fun l => startsWithS l "Outputs:") lines2).getD lines2.length
    let lines3 := spliceIns lines2 resourcesEnd (userPoolResource userPoolName userPoolClientName)
    let lines4 :=
      match firstIdxP (fun l => startsWithS l "Outputs:") lines3 with
      | some o =>
        spliceIns lines3 (lastOutputEnd lines3 o) (cognitoOutputs userPoolName userPoolClientName)
      | none =>
        lines3 ++ ("" :: "Outputs:" :: cognitoOutputs userPoolName userPoolClientName)
    .ok (joinLines lines4)

/-- Collection of the other Api resources of removeBasicAuth: walk the
lines until the Outputs: header, tracking the most recent resource header,
and record it on every line containing the Api type literal when it is not
the gateway being edited. -/
def collectOtherApis (lines : List String) (r : String) : List String :=
  let rec go : List String → Bool → Option String → List String
    | [], _, _ => []
    | l :: rest, inRes, cur =>
      if startsWithS l "Resources:" then go rest true cur
      else if startsWithS l "Outputs:" then []
      else if inRes then
        let cur2 := match resHeaderName? l with
          | some nm => some nm
          | none => cur
        match cur2 with
        | some nm =>
          if nm ≠ r && containsS l "Type: AWS::Serverless::Api" then
            nm :: go rest inRes cur2
          else go rest inRes cur2
        | none => go rest inRes cur2
      else go rest inRes cur
  go lines false none

/-- Template transform of removeBasicAuthProgrammatically (the authorizer
source-folder removal is elided): remove the Auth block of the Api resource
(its end found by the six-space indentation fence), then, when no other Api
resource block contains the BasicAuthorizerFunction literal, remove the
shared authorizer Function block and its LogGroup block; finally collapse
blank runs and trim the end. -/
def removeBasicAuthProgrammatically (doc gatewayName : String) : Except String String :=
  let resourceName := sanitizeName gatewayName
  let lines := splitLines doc
  match findBlockRO lines resourceName with
  | none => .error ("API Gateway " ++ resourceName ++ " not found")
  | some (s, endOpt) =>
    let e := endOpt.getD lines.length
    let lines1 :=
      match firstIdxInRange lines s e (fun l => isAuthLine l) with
      | some a =>
        let ae := (firstIdxInRange lines (a + 1) e (fun l => isSixIndentFence l)).getD e
        spliceRm lines a (ae - a)
      | none => lines
    let linesA := splitLines (joinLines lines1)
    let others := collectOtherApis linesA resourceName
    let isReferencedElsewhere := others.any (fun g =>
      match findBlockEndFirst linesA g with
      | some (gs, geOpt) =>
        sliceAny linesA gs (geOpt.getD linesA.length)
          (fun l => containsS l "BasicAuthorizerFunction")
      | none => false)
    let linesB :=
      if isReferencedElsewhere then linesA
      else
        let linesC :=
          match firstIdxP (fun l => startsWithS l "  BasicAuthorizerFunction:") linesA with
          | some i =>
            let ie := (firstIdxFrom linesA (i + 1)
              (fun l => isResHeader l || startsWithS l "Outputs:")).getD linesA.length
            spliceRm linesA i (ie - i)
          | none => linesA
        let linesD := splitLines (joinLines linesC)
        match firstIdxP (fun l => startsWithS l "  BasicAuthorizerFunctionLogGroup:") linesD with
        | some i =>
          let ie := (firstIdxFrom linesD (i + 1)
            (fun l => isResHeader l || startsWithS l "Outputs:")).getD linesD.length
          spliceRm linesD i (ie - i)
        | none => linesD
    .ok (trimEndS (collapseNl (joinLines linesB)) ++ "\n")

/-!
Embedding of updateProjectProgrammatically (environment-variable
reconciliation).  The source works on the whole template string with
indexOf / lastIndexOf / slice and several regular expressions; each regex
is embedded as a dedicated deterministic scanner (all the patterns involved
are backtracking-free after maximal munch, as each quantified class is
disjoint from the character that follows it).  The scanners use explicit
fuel, always called with the character count plus one, so that every
definition is structural and kernel-executable.
-/

/-- Generic split on one separator character, keeping empty segments. -/
def splitOnChar (sep : Char) (cs : List Char) : List (List Char) :=
  cs.foldr
    (fun c acc =>
      if c = sep then [] :: acc
      else match acc with
        | h :: t => (c :: h) :: t
        | [] => [[c]])
    [[]]

/-- Join segments with one separator character. -/
def joinWith (sep : Char) : List (List Char) → List Char
  | [] => []
  | [l] => l
  | l :: rest => l ++ sep :: joinWith sep rest

/-- Association-list update with JavaScript object semantics: an existing
key keeps its position and gets the new value, a new key is appended. -/
def assocSet (m : List (String × String)) (k v : String) : List (String × String) :=
  if m.any (fun p => p.1 = k) then m.map (fun p => if p.1 = k then (k, v) else p)
  else m ++ [(k, v)]

/-- Association-list lookup. -/
def assocGet? (m : List (String × String)) (k : String) : Option String :=
  (m.find? (fun p => p.1 = k)).map (fun p => p.2)

/-- JavaScript truthiness of an object lookup: missing keys and empty
strings are both falsy. -/
def isTruthyVal : Option String → Bool
  | none => false
  | some v => v ≠ ""

/-- Parse of the .env content: split into lines, trim, skip blanks and
hash-comments, split each line on the equals sign; the first segment
(when non-empty after the truthiness test and not ENVIRONMENT) is the key,
the remaining segments re-joined with equals signs and trimmed are the
value. -/
def parseEnv (envContent : String) : List (String × String) :=
  (splitLines envContent).foldl
    (fun m line =>
      let t := trimCh line.data
      if t ≠ [] && !(isPrefixCh "#".data t) then
        match splitOnChar '=' t with
        | [] => m
        | key :: valueParts =>
          if key ≠ [] && trimCh key ≠ "ENVIRONMENT".data then
            assocSet m ⟨trimCh key⟩ ⟨trimCh (joinWith '=' valueParts)⟩
          else m
      else m)
    []

/-- Matcher of the parameter-extraction pattern at the head of cs: two
spaces, Env, a word-character name, a colon, whitespace runs around the
literals Type:, String and Default:, then a quoted value.  Returns the
name, the value and the rest of the input after the closing quote. -/
def matchEnvParam (cs : List Char) : Option (String × String × List Char) :=
  if isPrefixCh "  Env".data cs then
    let r0 := cs.drop 5
    let name := r0.takeWhile (fun c => isWordChar c)
    if name = [] then none
    else match r0.drop name.length with
      | ':' :: r2 =>
        let ws1 := r2.takeWhile (fun c => isWsChar c)
        let r3 := r2.drop ws1.length
        if ws1 ≠ [] && isPrefixCh "Type:".data r3 then
          let r4 := r3.drop 5
          let ws2 := r4.takeWhile (fun c => isWsChar c)
          let r5 := r4.drop ws2.length
          if ws2 ≠ [] && isPrefixCh "String".data r5 then
            let r6 := r5.drop 6
            let ws3 := r6.takeWhile (fun c => isWsChar c)
            let r7 := r6.drop ws3.length
            if ws3 ≠ [] && isPrefixCh "Default:".data r7 then
              let r8 := r7.drop 8
              let r9 := r8.dropWhile (fun c => isWsChar c)
              match r9 with
              | '\x27' :: r10 =>
                let value := r10.takeWhile (fun c => c ≠ '\x27')
                match r10.drop value.length with
                | '\x27' :: r11 => some (⟨name⟩, ⟨value⟩, r11)
                | _ => none
              | _ => none
            else none
          else none
        else none
      | _ => none
  else none

/-- Global scan collecting every parameter extracted from the template,
with object-update semantics on duplicate names. -/
def scanParamsAux : Nat → List Char → List (String × String) → List (String × String)
  | 0, _, acc => acc
  | _ + 1, [], acc => acc
  | fuel + 1, c :: rest, acc =>
    match matchEnvParam (c :: rest) with
    | some (n, v, r) => scanParamsAux fuel r (assocSet acc n v)
    | none => scanParamsAux fuel rest acc

/-- Parameters currently present in the template, in match order. -/
def scanParams (cs : List Char) : List (String × String) :=
  scanParamsAux (cs.length + 1) cs []

/-- Global scan collecting every match of the header pattern two spaces,
Env, word characters, colon, as full matched strings. -/
def scanEnvHeadersAux : Nat → List Char → List (List Char) → List (List Char)
  | 0, _, acc => acc
  | _ + 1, [], acc => acc
  | fuel + 1, c :: rest, acc =>
    if isPrefixCh "  Env".data (c :: rest) then
      let r0 := (c :: rest).drop 5
      let name := r0.takeWhile (fun x => isWordChar x)
      match r0.drop name.length with
      | ':' :: r2 =>
        if name ≠ [] then
          scanEnvHeadersAux fuel r2 (acc ++ ["  Env".data ++ name ++ [':']])
        else scanEnvHeadersAux fuel rest acc
      | _ => scanEnvHeadersAux fuel rest acc
    else scanEnvHeadersAux fuel rest acc

/-- All Env-header matches of a section. -/
def scanEnvHeaders (cs : List Char) : List (List Char) :=
  scanEnvHeadersAux (cs.length + 1) cs []

/-- First match of the pattern Default-colon-space-quote, value, quote,
newline: returns its index and length. -/
def findDefaultLineMatch : Nat → List Char → Nat → Option (Nat × Nat)
  | 0, _, _ => none
  | _ + 1, [], _ => none
  | fuel + 1, c :: rest, i =>
    let cs := c :: rest
    if isPrefixCh "Default: \x27".data cs then
      let r0 := cs.drop 10
      let value := r0.takeWhile (fun x => x ≠ '\x27')
      match r0.drop value.length with
      | '\x27' :: '\n' :: _ => some (i, 10 + value.length + 2)
      | _ => findDefaultLineMatch fuel rest (i + 1)
    else findDefaultLineMatch fuel rest (i + 1)

/-- First-occurrence literal replacement (String.prototype.replace with a
plain pattern). -/
def replaceFirstLit : Nat → List Char → List Char → List Char → List Char
  | 0, cs, _, _ => cs
  | _ + 1, [], _, _ => []
  | fuel + 1, c :: rest, pat, rep =>
    if isPrefixCh pat (c :: rest) then rep ++ (c :: rest).drop pat.length
    else c :: replaceFirstLit fuel rest pat rep

/-- First match of a header literal followed by a whitespace run ending in
a newline (the pattern literal-then-whitespace-star-then-newline): the
match covers the literal and the run up to and including its last newline;
the replacement replaces the whole match.  Used for the Parameters and
Resources insertion fall-backs, where keepMatch selects whether the match
itself is kept in front of the replacement. -/
def replaceFirstLitWsNl : Nat → List Char → List Char → List Char → Bool → List Char
  | 0, cs, _, _, _ => cs
  | _ + 1, [], _, _, _ => []
  | fuel + 1, c :: rest, lit, rep, keepMatch =>
    let cs := c :: rest
    if isPrefixCh lit cs then
      let after := cs.drop lit.length
      let ws := after.takeWhile (fun x => isWsChar x)
      match lastIdxP (fun x => x = '\n') ws with
      | some k =>
        let matched := lit ++ ws.take (k + 1)
        let tail := cs.drop (lit.length + k + 1)
        if keepMatch then matched ++ rep ++ tail else rep ++ tail
      | none => c :: replaceFirstLitWsNl fuel rest lit rep keepMatch
    else c :: replaceFirstLitWsNl fuel rest lit rep keepMatch

/-- Consume zero or more lines that start with at least four spaces and end
with a newline (the indented-block group of the removal patterns); a final
indented line without a newline is not consumed. -/
def consumeIndentLines : Nat → List Char → List Char
  | 0, cs => cs
  | fuel + 1, cs =>
    if isPrefixCh "    ".data cs then
      match cs.dropWhile (fun x => x ≠ '\n') with
      | '\n' :: t => consumeIndentLines fuel t
      | _ => cs
    else cs

/-- Matcher of one removal block: the header literal, a newline, the
indented lines, and one optional further newline; returns the rest. -/
def matchIndentBlock (header : List Char) (cs : List Char) : Option (List Char) :=
  if isPrefixCh (header ++ ['\n']) cs then
    let r0 := cs.drop (header.length + 1)
    let r1 := consumeIndentLines (r0.length + 1) r0
    match r1 with
    | '\n' :: t => some t
    | t => some t
  else none

/-- Global removal of every block starting with the given header (the
per-variable parameter and SSM-resource removal patterns). -/
def removeAllBlocksAux (header : List Char) : Nat → List Char → List Char
  | 0, cs => cs
  | _ + 1, [] => []
  | fuel + 1, c :: rest =>
    match matchIndentBlock header (c :: rest) with
    | some r => removeAllBlocksAux header fuel r
    | none => c :: removeAllBlocksAux header fuel rest

/-- Remove every indented block introduced by the header. -/
def removeAllBlocks (header : String) (cs : List Char) : List Char :=
  removeAllBlocksAux header.data (cs.length + 1) cs

/-- Global multiline removal of the usage lines: at each line start, a
non-empty whitespace run (which, like the regex whitespace class, may span
newlines), the literal name-colon-space-bang-Ref-space-Env-name, the rest
of that line, and one optional newline. -/
def removeUsageLinesAux (lit : List Char) : Nat → List Char → Bool → List Char
  | 0, cs, _ => cs
  | _ + 1, [], _ => []
  | fuel + 1, c :: rest, atStart =>
    let cs := c :: rest
    let matched : Option (List Char) :=
      if atStart then
        let ws := cs.takeWhile (fun x => isWsChar x)
        if ws ≠ [] && isPrefixCh lit (cs.drop ws.length) then
          let afterLit := (cs.drop (ws.length + lit.length)).dropWhile (fun x => x ≠ '\n')
          match afterLit with
          | '\n' :: t => some t
          | t => some t
        else none
      else none
    match matched with
    | some r => removeUsageLinesAux lit fuel r true
    | none => c :: removeUsageLinesAux lit fuel rest (c = '\n')

/-- Remove every Lambda environment reference line of the variable. -/
def removeUsageLines (v : String) (cs : List Char) : List Char :=
  removeUsageLinesAux (v ++ ": !Ref Env" ++ v).data (cs.length + 1) cs true

/-- Global removal of empty Environment/Variables wrappers: the two literal
lines, not followed by ten spaces (the negative lookahead). -/
def removeEmptyEnvBlocksAux : Nat → List Char → List Char
  | 0, cs => cs
  | _ + 1, [] => []
  | fuel + 1, c :: rest =>
    let cs := c :: rest
    let lit := "      Environment:\n        Variables:\n".data
    if isPrefixCh lit cs && !(isPrefixCh (List.replicate 10 ' ') (cs.drop lit.length)) then
      removeEmptyEnvBlocksAux fuel (cs.drop lit.length)
    else c :: removeEmptyEnvBlocksAux fuel rest

/-- Remove the empty Environment wrappers. -/
def removeEmptyEnvBlocks (cs : List Char) : List Char :=
  removeEmptyEnvBlocksAux (cs.length + 1) cs

/-- First-match removal of an empty Parameters section: the literal
Parameters-colon, a whitespace run whose last character is a newline, with
an alphanumeric character right after (the lookahead). -/
def removeEmptyParamsAux : Nat → List Char → List Char
  | 0, cs => cs
  | _ + 1, [] => []
  | fuel + 1, c :: rest =>
    let cs := c :: rest
    if isPrefixCh "Parameters:".data cs then
      let after := cs.drop 11
      let ws := after.takeWhile (fun x => isWsChar x)
      let tail := after.drop ws.length
      let lastNl := lastIdxP (fun x => x = '\n') ws
      if lastNl = some (ws.length - 1) && ws ≠ [] &&
          (match tail with
            | t :: _ => isAlnumChar t
            | [] => false) then
        tail
      else c :: removeEmptyParamsAux fuel rest
    else c :: removeEmptyParamsAux fuel rest

/-- Remove an empty Parameters section (first match only). -/
def removeEmptyParams (cs : List Char) : List Char :=
  removeEmptyParamsAux (cs.length + 1) cs

/-- First-occurrence replacement of a sub-pattern inside an already matched
segment (String.prototype.replace with a plain string pattern). -/
def replaceFirstSub (seg pat rep : List Char) : List Char :=
  replaceFirstLit (seg.length + 1) seg pat rep

/-- First-match blank-line fix before Resources: find Default-colon-quote,
a quote-free value, the closing quote and a newline-Resources-colon; inside
the matched segment replace the first newline-Resources occurrence with a
double newline. -/
def fixBlankBeforeResourcesAux : Nat → List Char → List Char
  | 0, cs => cs
  | _ + 1, [] => []
  | fuel + 1, c :: rest =>
    let cs := c :: rest
    if isPrefixCh "Default: \x27".data cs then
      let r0 := cs.drop 10
      let value := r0.takeWhile (fun x => x ≠ '\x27')
      match r0.drop value.length with
      | '\x27' :: r2 =>
        if isPrefixCh "\nResources:".data r2 then
          let seg := "Default: \x27".data ++ value ++ ['\x27'] ++ "\nResources:".data
          replaceFirstSub seg "\nResources:".data "\n\nResources:".data ++ r2.drop 11
        else c :: fixBlankBeforeResourcesAux fuel rest
      | _ => c :: fixBlankBeforeResourcesAux fuel rest
    else c :: fixBlankBeforeResourcesAux fuel rest

/-- Blank-line fix before Resources (first match only). -/
def fixBlankBeforeResources (cs : List Char) : List Char :=
  fixBlankBeforeResourcesAux (cs.length + 1) cs

/-- Global in-place replacement of a changed default value: match the
extraction pattern specialized to one name and substitute the new value
between the quotes, keeping the matched prefix. -/
def replaceChangedAux (name newV : List Char) : Nat → List Char → List Char
  | 0, cs => cs
  | _ + 1, [] => []
  | fuel + 1, c :: rest =>
    let cs := c :: rest
    let header := "  Env".data ++ name ++ [':']
    let matched : Option (List Char × List Char) :=
      if isPrefixCh header cs then
        let r2 := cs.drop header.length
        let ws1 := r2.takeWhile (fun x => isWsChar x)
        let r3 := r2.drop ws1.length
        if ws1 ≠ [] && isPrefixCh "Type:".data r3 then
          let r4 := r3.drop 5
          let ws2 := r4.takeWhile (fun x => isWsChar x)
          let r5 := r4.drop ws2.length
          if ws2 ≠ [] && isPrefixCh "String".data r5 then
            let r6 := r5.drop 6
            let ws3 := r6.takeWhile (fun x => isWsChar x)
            let r7 := r6.drop ws3.length
            if ws3 ≠ [] && isPrefixCh "Default:".data r7 then
              let r8 := r7.drop 8
              let ws4 := r8.takeWhile (fun x => isWsChar x)
              let r9 := r8.drop ws4.length
              match r9 with
              | '\x27' :: r10 =>
                let value := r10.takeWhile (fun x => x ≠ '\x27')
                (match r10.drop value.length with
                  | '\x27' :: r11 =>
                    some (header ++ ws1 ++ "Type:".data ++ ws2 ++ "String".data ++ ws3 ++
                      "Default:".data ++ ws4 ++ ['\x27'] ++ newV ++ ['\x27'], r11)
                  | _ => none)
              | _ => none
            else none
          else none
        else none
      else none
    match matched with
    | some (out, r) => out ++ replaceChangedAux name newV fuel r
    | none => c :: replaceChangedAux name newV fuel rest

/-- Replace the default value of one changed variable everywhere. -/
def replaceChanged (name newV : String) (cs : List Char) : List Char :=
  replaceChangedAux name.data newV.data (cs.length + 1) cs

/-- YAML of the new Parameters entries (joined with newlines, plus a final
newline). -/
def newParamsYamlOf (newVars : List (String × String)) : List Char :=
  joinWith '\n' (newVars.map (fun p =>
    ("  Env" ++ p.1 ++ ":\n    Type: String\n    Default: \x27" ++ p.2 ++ "\x27").data)) ++ ['\n']

/-- YAML of the new SSM Parameter resources (each entry carries its own
trailing newline; entries joined with newlines). -/
def newResourcesYamlOf (newVars : List (String × String)) (environment projectName : String) :
    List Char :=
  joinWith '\n' (newVars.map (fun p =>
    ("  Param" ++ p.1 ++ ":\n    Type: AWS::SSM::Parameter\n    Properties:\n      Name: !Sub \x27/sam-smith/" ++
      environment ++ "/" ++ projectName ++ "/" ++ p.1 ++
      "\x27\n      Type: String\n      Value: !Ref Env" ++ p.1 ++ "\n").data))

/-- Add-new pass of the reconciliation: insert the Parameters entries after
the last existing Env parameter (right after its Default line), or into an
empty Parameters section, or create the section before Resources:; then
insert the SSM resources after the last existing SSM resource (at the
double newline that follows it), or right after Resources:. -/
def addNewPass (tc : List Char) (newVars : List (String × String))
    (environment projectName : String) : List Char :=
  let newParamsYaml := newParamsYamlOf newVars
  let newResourcesYaml := newResourcesYamlOf newVars environment projectName
  let tc1 :=
    match indexOfCh tc "Parameters:".data, indexOfCh tc "Resources:".data with
    | some p, some r =>
      let sect := (tc.drop p).take (r - p)
      (match (scanEnvHeaders sect).getLast? with
        | some lastParam =>
          (match lastIndexOfCh sect lastParam with
            | some li =>
              let lastParamIndex := p + li
              let afterParam := tc.drop lastParamIndex
              (match findDefaultLineMatch (afterParam.length + 1) afterParam 0 with
                | some (di, dl) =>
                  let insertPos := lastParamIndex + di + dl
                  tc.take insertPos ++ newParamsYaml ++ tc.drop insertPos
                | none => tc)
            | none => tc)
        | none =>
          replaceFirstLitWsNl (tc.length + 1) tc "Parameters:".data
            ("Parameters:\n".data ++ newParamsYaml) false)
    | none, some _ =>
      replaceFirstLit (tc.length + 1) tc "Resources:".data
        ("Parameters:\n".data ++ newParamsYaml ++ "\nResources:".data)
    | _, _ => tc
  match lastIndexOfCh tc1 "Type: AWS::SSM::Parameter".data with
  | some li =>
    let remaining := tc1.drop li
    (match indexOfCh remaining "\n\n".data with
      | some dn =>
        let insertPos := li + dn
        tc1.take insertPos ++ ("\n\n".data ++ trimEndCh newResourcesYaml) ++ tc1.drop insertPos
      | none => tc1)
  | none =>
    replaceFirstLitWsNl (tc1.length + 1) tc1 "Resources:".data newResourcesYaml true

/-- Remove-old pass of the reconciliation: per variable remove the Env
parameter block, the Param SSM block and the Lambda usage lines, then clean
up empty Environment wrappers, an empty Parameters section, the blank line
before Resources:, and collapse blank runs. -/
def removeOldPass (tc : List Char) (removedVars : List String) : List Char :=
  let t1 := removedVars.foldl
    (fun t v =>
      removeUsageLines v
        (removeAllBlocks ("  Param" ++ v ++ ":") (removeAllBlocks ("  Env" ++ v ++ ":") t)))
    tc
  let t2 := removeEmptyEnvBlocks t1
  let t3 := removeEmptyParams t2
  let t4 := fixBlankBeforeResources t3
  collapseNlAux t4 0

/-- Template transform of updateProjectProgrammatically: parse the .env
content, extract the template parameters, compute the new, removed and
changed variables with the truthiness tests of the source (an empty string
value counts as absent on both sides), and run the three passes that are
enabled and non-trivial. -/
def updateProjectProgrammatically (envContent templateContent : String)
    (environment projectName : String) (addNew removeOld updateChanged : Bool) : String :=
  let envVars := parseEnv envContent
  let tc0 := templateContent.data
  let templateVars := scanParams tc0
  let newVars := envVars.filter (fun p => !(isTruthyVal (assocGet? templateVars p.1)))
  let removedVars := templateVars.filter (fun p => !(isTruthyVal (assocGet? envVars p.1)))
  let changedVars := (envVars.filter (fun p =>
    (assocGet? templateVars p.1).isSome && assocGet? templateVars p.1 ≠ some p.2))
  let tc1 := if addNew && newVars.length > 0 then
      addNewPass tc0 newVars environment projectName
    else tc0
  let tc2 := if removeOld && removedVars.length > 0 then
      removeOldPass tc1 (removedVars.map (fun p => p.1))
    else tc1
  let tc3 := if updateChanged && changedVars.length > 0 then
      changedVars.foldl (fun t cv => replaceChanged cv.1 cv.2 t) tc2
    else tc2
  ⟨tc3⟩

/-!
Concrete documents used by the theorems.  The operations above are defined
over arbitrary documents; the values below are specific inputs.
-/

/-- Modelled from the spec: the boilerplate templates/template.yaml that the
generator instantiates is not under src (only the generator that rewrites
it is), so the template of a freshly generated basic project is modelled
from the specification: one Lambda Function resource with its LogGroup, one
Api resource, the Lambda carrying one event binding for the Api (named
event1, method get, path /hello), and — when withOutputs is set — an
Outputs: section holding the Api resource's paired Url output.  Names
follow the generator's conventions (the function resource is the function
name suffixed with Function). -/
def freshTemplateLines (withOutputs : Bool) : List String :=
  ["AWSTemplateFormatVersion: \x272010-09-09\x27",
   "Transform: AWS::Serverless-2016-10-31",
   "",
   "Resources:",
   "  fFunction:",
   "    Type: AWS::Serverless::Function",
   "    Properties:",
   "      FunctionName: !Sub $\x7bAWS::StackName\x7d-fFunction",
   "      CodeUri: src/",
   "      Handler: f/handler.f",
   "      Runtime: nodejs20.x",
   "      Timeout: 60",
   "      Architectures:",
   "        - arm64",
   "      Events:",
   "        event1:",
   "          Type: Api",
   "          Properties:",
   "            RestApiId: !Ref FApi",
   "            Path: /hello",
   "            Method: get",
   "    Metadata:",
   "      BuildMethod: esbuild",
   "      BuildProperties:",
   "        Minify: false",
   "        Target: es2020",
   "        Sourcemap: true",
   "        EntryPoints:",
   "          - f/handler.ts",
   "        External:",
   "          - aws-sdk",
   "",
   "  fFunctionLogGroup:",
   "    Type: AWS::Logs::LogGroup",
   "    Properties:",
   "      LogGroupName: !Sub \x27/aws/lambda/$\x7bfFunction\x7d\x27",
   "      RetentionInDays: 7",
   "",
   "  FApi:",
   "    Type: AWS::Serverless::Api",
   "    Properties:",
   "      Name: !Sub $\x7bAWS::StackName\x7d-FApi",
   "      StageName: default",
   "      Cors:",
   "        AllowOrigin: \"\x27*\x27\"",
   ""] ++
  (if withOutputs then
    ["Outputs:",
     "  FApiUrl:",
     "    Description: \"API Gateway endpoint URL\"",
     "    Value: !Sub \"https://$\x7bFApi\x7d.execute-api.$\x7bAWS::Region\x7d.amazonaws.com/default/\"",
     ""]
   else [])

/-- Fresh-project template as a string. -/
def freshTemplate (withOutputs : Bool) : String :=
  joinLines (freshTemplateLines withOutputs)

/-- Blank-line normalization used to compare templates: the sequence of
non-blank lines. -/
def stripBlank (s : String) : List String :=
  (splitLines s).filter (fun l => l ≠ "")

/-- Number of lines carrying the serverless Function type. -/
def countFunctionLines (s : String) : Nat :=
  (splitLines s).countP (fun l => containsS l "Type: AWS::Serverless::Function")

/-- Template used by the reconciliation idempotence analysis: a minimal
document with a Resources section and no parameters. -/
def tplDocC1 : String :=
  joinLines
    ["Resources:",
     "  FFunction:",
     "    Type: AWS::Serverless::Function",
     ""]

/-- Environment file content holding a single key with an empty value. -/
def envDocC1 : String := "B=\n"

/-- One reconciliation run over the C1 inputs. -/
def reconcileOnceC1 (t : String) : String :=
  updateProjectProgrammatically envDocC1 t "dev" "p" true true true

/-- Template produced by the first reconciliation run. -/
def tplDocC1After : String := reconcileOnceC1 tplDocC1

/-- Document with two Function resources followed by a non-empty Outputs
section; the second Function is the last resource before Outputs:. -/
def docC2 : String :=
  joinLines
    ["Resources:",
     "  aFunction:",
     "    Type: AWS::Serverless::Function",
     "    Properties:",
     "      Timeout: 60",
     "",
     "  bFunction:",
     "    Type: AWS::Serverless::Function",
     "    Properties:",
     "      Timeout: 60",
     "",
     "Outputs:",
     "  SomeUrl:",
     "    Description: \"doc\"",
     "    Value: out",
     ""]

/-- Document whose Lambda already carries the endpoint triple get /a on
gateway g. -/
def docC4 : String :=
  joinLines
    ["Resources:",
     "  fFunction:",
     "    Type: AWS::Serverless::Function",
     "    Properties:",
     "      Timeout: 60",
     "      Events:",
     "        event1:",
     "          Type: Api",
     "          Properties:",
     "            RestApiId: !Ref g",
     "            Path: /a",
     "            Method: get",
     "    Metadata:",
     "      BuildMethod: esbuild",
     ""]

/-- Document with a layer l1 that is referenced by a Function Layers:
list. -/
def docC5 : String :=
  joinLines
    ["Resources:",
     "  fFunction:",
     "    Type: AWS::Serverless::Function",
     "    Properties:",
     "      Timeout: 60",
     "      Layers:",
     "        - !Ref l1",
     "",
     "  l1:",
     "    Type: \x27AWS::Serverless::LayerVersion\x27",
     "    Properties:",
     "      ContentUri: ./src/layers/l1",
     "      CompatibleRuntimes:",
     "        - nodejs20.x",
     "",
     "Outputs:",
     "  U:",
     "    Value: v",
     ""]

/-- Document containing exactly one Function resource (plus its LogGroup). -/
def docC6 : String :=
  joinLines
    ["Resources:",
     "  fFunction:",
     "    Type: AWS::Serverless::Function",
     "    Properties:",
     "      Timeout: 60",
     "",
     "  fFunctionLogGroup:",
     "    Type: AWS::Logs::LogGroup",
     "    Properties:",
     "      RetentionInDays: 7",
     ""]

/-- Document whose Api resource already carries an Auth: block. -/
def docC7 : String :=
  joinLines
    ["Resources:",
     "  gApi:",
     "    Type: AWS::Serverless::Api",
     "    Properties:",
     "      Name: !Sub x-gApi",
     "      StageName: default",
     "      Auth:",
     "        DefaultAuthorizer: CognitoAuthorizer",
     "        Authorizers:",
     "          CognitoAuthorizer:",
     "            UserPoolArn: !GetAtt pool1UserPool.Arn",
     ""]

/-- Document whose Lambda has one event binding and an Environment block
(whose Variables: line is indented by exactly eight spaces). -/
def docC8 : String :=
  joinLines
    ["Resources:",
     "  fFunction:",
     "    Type: AWS::Serverless::Function",
     "    Properties:",
     "      Timeout: 60",
     "      Environment:",
     "        Variables:",
     "          A2: !Ref EnvA2",
     "      Events:",
     "        event1:",
     "          Type: Api",
     "          Properties:",
     "            RestApiId: !Ref g",
     "            Path: /hello",
     "            Method: get",
     "    Metadata:",
     "      BuildMethod: esbuild",
     ""]

/-- Document whose Lambda has two event bindings event1 (get /a) and
event2 (post /b) on gateway g. -/
def docC9 : String :=
  joinLines
    ["Resources:",
     "  fFunction:",
     "    Type: AWS::Serverless::Function",
     "    Properties:",
     "      Handler: f/handler.f",
     "      Timeout: 60",
     "      Events:",
     "        event1:",
     "          Type: Api",
     "          Properties:",
     "            RestApiId: !Ref g",
     "            Path: /a",
     "            Method: get",
     "        event2:",
     "          Type: Api",
     "          Properties:",
     "            RestApiId: !Ref g",
     "            Path: /b",
     "            Method: post",
     "    Metadata:",
     "      BuildMethod: esbuild",
     ""]

/-- Template after creating gateway api2 with endpoint post /test on
Lambda f, over the fresh template that has an Outputs section. -/
def createdC3doc : String :=
  match createApiGatewayProgrammatically (freshTemplate true) "api2"
      (some ("post", "/test", "f")) with
  | .ok d => d
  | .error _ => ""

/-- Round trip over the fresh template with Outputs. -/
def roundTripC3 : String :=
  deleteApiGatewayProgrammatically createdC3doc "api2"

/-- Template after creating gateway api2 with endpoint post /test on
Lambda f, over the fresh template without an Outputs section. -/
def createdC3docNoOut : String :=
  match createApiGatewayProgrammatically (freshTemplate false) "api2"
      (some ("post", "/test", "f")) with
  | .ok d => d
  | .error _ => ""

/-- Round trip over the fresh template without Outputs. -/
def roundTripC3NoOut : String :=
  deleteApiGatewayProgrammatically createdC3docNoOut "api2"

/-- Event-header test with the Type/Properties exclusion, the per-line
predicate counted by the Events scan. -/
def isEventHeader (l : String) : Bool :=
  match eventName? l with
  | some nm => nm ≠ "Type" && nm ≠ "Properties"
  | none => false

/-- Template after adding the already-present endpoint triple to docC4. -/
def docC4After : String :=
  match addApiGatewayEndpointProgrammatically docC4 "g" "get" "/a" "f" with
  | .ok d => d
  | .error _ => ""

/-- Template after adding Cognito auth to the Api of docC7 that already has
an Auth: block. -/
def docC7After : String :=
  match addCognitoAuthProgrammatically docC7 "gApi" "pool2" with
  | .ok d => d
  | .error _ => ""

/-- Document with the shared basic authorizer present and an Api whose
block already carries an Auth: line. -/
def docC7w : String :=
  joinLines
    ["Resources:",
     "  gApi:",
     "    Type: AWS::Serverless::Api",
     "    Properties:",
     "      StageName: default",
     "      Auth:",
     "        DefaultAuthorizer: BasicAuthorizer",
     "",
     "  BasicAuthorizerFunction:",
     "    Type: AWS::Serverless::Function",
     ""]

/-- Template after adding endpoint post /x to the Lambda of docC8. -/
def docC8After : String :=
  match addApiGatewayEndpointProgrammatically docC8 "g" "post" "/x" "f" with
  | .ok d => d
  | .error _ => ""

/-- Template after updating endpoint get /a to get /c on the same Lambda of
docC9. -/
def docC9After : String :=
  match updateApiGatewayEndpointProgrammatically docC9 "g" "get" "/a" "f" "get" "/c" "f" with
  | .ok d => d
  | .error _ => ""

/-!
Helper lemmas.
-/

theorem splitLinesCh_cons (c : Char) (rest : List Char) :
    splitLinesCh (c :: rest) =
      (if c = '\n' then [] :: splitLinesCh rest
       else match splitLinesCh rest with
         | h :: t => (c :: h) :: t
         | [] => [[c]]) := rfl

theorem splitLinesCh_ne_nil (cs : List Char) : splitLinesCh cs ≠ [] := by
  induction cs with
  | nil => simp [splitLinesCh]
  | cons c rest ih =>
    rw [splitLinesCh_cons]
    by_cases h : c = '\n'
    · simp [h]
    · rw [if_neg h]
      cases hr : splitLinesCh rest with
      | nil => exact absurd hr ih
      | cons hd tl => simp

theorem joinCh_splitLinesCh (cs : List Char) : joinCh (splitLinesCh cs) = cs := by
  induction cs with
  | nil => rfl
  | cons c rest ih =>
    rw [splitLinesCh_cons]
    by_cases h : c = '\n'
    · subst h
      rw [if_pos rfl]
      cases hr : splitLinesCh rest with
      | nil => exact absurd hr (splitLinesCh_ne_nil rest)
      | cons hd tl =>
        rw [hr] at ih
        show [] ++ '\n' :: joinCh (hd :: tl) = '\n' :: rest
        rw [List.nil_append, ih]
    · rw [if_neg h]
      cases hr : splitLinesCh rest with
      | nil => exact absurd hr (splitLinesCh_ne_nil rest)
      | cons hd tl =>
        rw [hr] at ih
        cases tl with
        | nil =>
          show c :: hd = c :: rest
          simp only [joinCh] at ih
          rw [ih]
        | cons x xs =>
          show (c :: hd) ++ '\n' :: joinCh (x :: xs) = c :: rest
          rw [List.cons_append]
          simp only [joinCh] at ih
          rw [ih]

theorem string_data_mk (cs : List Char) : (String.mk cs).data = cs := rfl

theorem string_mk_data (s : String) : String.mk s.data = s := rfl

theorem joinLines_splitLines (s : String) : joinLines (splitLines s) = s := by
  show String.mk (joinCh (((splitLinesCh s.data).map (fun cs => String.mk cs)).map
    (fun l => l.data))) = s
  rw [List.map_map]
  have : ((fun l => String.data l) ∘ fun cs => String.mk cs) = id := by
    funext cs; rfl
  rw [this, List.map_id, joinCh_splitLinesCh]

theorem splitLinesCh_no_nl (cs : List Char) :
    ∀ l ∈ splitLinesCh cs, '\n' ∉ l := by
  induction cs with
  | nil =>
    intro l hl
    have : l = [] := by simpa [splitLinesCh] using hl
    simp [this]
  | cons c rest ih =>
    intro l hl
    rw [splitLinesCh_cons] at hl
    by_cases h : c = '\n'
    · rw [if_pos h] at hl
      rcases List.mem_cons.mp hl with h1 | h1
      · simp [h1]
      · exact ih l h1
    · rw [if_neg h] at hl
      cases hr : splitLinesCh rest with
      | nil => exact absurd hr (splitLinesCh_ne_nil rest)
      | cons hd tl =>
        rw [hr] at hl
        rcases List.mem_cons.mp hl with h1 | h1
        · subst h1
          intro hmem
          rcases List.mem_cons.mp hmem with h2 | h2
          · exact h h2.symm
          · exact ih hd (by rw [hr]; exact List.mem_cons_self hd tl) h2
        · exact ih l (by rw [hr]; exact List.mem_cons_of_mem hd h1)

theorem length_splitLinesCh (cs : List Char) :
    (splitLinesCh cs).length = cs.count '\n' + 1 := by
  induction cs with
  | nil => rfl
  | cons c rest ih =>
    rw [splitLinesCh_cons]
    by_cases h : c = '\n'
    · rw [if_pos h]
      subst h
      have hcnt : (('\n' : Char) :: rest).count '\n' = rest.count '\n' + 1 := by
        simp [List.count_cons]
      rw [hcnt]
      simp only [List.length_cons, ih]
    · rw [if_neg h]
      have hcnt : (c :: rest).count '\n' = rest.count '\n' := by
        simp [List.count_cons, h]
      cases hr : splitLinesCh rest with
      | nil => exact absurd hr (splitLinesCh_ne_nil rest)
      | cons hd tl =>
        rw [hr] at ih
        simp only [List.length_cons] at ih ⊢
        rw [hcnt]
        exact ih

theorem count_nl_joinCh (ls : List (List Char)) (h : ∀ l ∈ ls, '\n' ∉ l) :
    (joinCh ls).count '\n' = ls.length - 1 := by
  induction ls with
  | nil => rfl
  | cons l rest ih =>
    cases rest with
    | nil =>
      show l.count '\n' = ([l].length - 1 : Nat)
      have h0 : l.count '\n' = 0 :=
        List.count_eq_zero.mpr (h l (List.mem_cons_self l []))
      simp [h0]
    | cons x xs =>
      show (l ++ '\n' :: joinCh (x :: xs)).count '\n' = ((l :: x :: xs).length - 1 : Nat)
      have h0 : l.count '\n' = 0 :=
        List.count_eq_zero.mpr (h l (List.mem_cons_self l (x :: xs)))
      have ihr := ih (fun m hm => h m (List.mem_cons_of_mem l hm))
      have hx : (('\n' :: joinCh (x :: xs))).count '\n' = (joinCh (x :: xs)).count '\n' + 1 := by
        simp [List.count_cons]
      rw [List.count_append, hx, h0, ihr]
      simp only [List.length_cons]
      omega

theorem collapseNlAux_count_le (cs : List Char) :
    ∀ p, (collapseNlAux cs p).count '\n' ≤ cs.count '\n' + min p 2 := by
  induction cs with
  | nil =>
    intro p
    simp [collapseNlAux, List.count_replicate]
  | cons c rest ih =>
    intro p
    rw [show collapseNlAux (c :: rest) p =
      (if c = '\n' then collapseNlAux rest (p + 1)
       else List.replicate (min p 2) '\n' ++ c :: collapseNlAux rest 0) from rfl]
    by_cases h : c = '\n'
    · rw [if_pos h]
      have h1 := ih (p + 1)
      have hcnt : (c :: rest).count '\n' = rest.count '\n' + 1 := by
        simp [List.count_cons, h]
      omega
    · rw [if_neg h]
      rw [List.count_append]
      have h1 := ih 0
      have hne : ('\n' : Char) ≠ c := fun hh => h hh.symm
      have hrep : (List.replicate (min p 2) '\n').count '\n' = min p 2 := by
        simp [List.count_replicate]
      have hcons : (c :: collapseNlAux rest 0).count '\n' = (collapseNlAux rest 0).count '\n' := by
        simp [List.count_cons, h]
      have hcnt : (c :: rest).count '\n' = rest.count '\n' := by
        simp [List.count_cons, h]
      rw [hrep, hcons, hcnt]
      omega

theorem splitLines_length (t : String) :
    (splitLines t).length = t.data.count '\n' + 1 := by
  simp [splitLines, List.length_map, length_splitLinesCh]

theorem splitLines_no_nl (t : String) :
    ∀ l ∈ splitLines t, '\n' ∉ l.data := by
  intro l hl
  simp only [splitLines, List.mem_map] at hl
  obtain ⟨cs, hcs, hmk⟩ := hl
  have := splitLinesCh_no_nl t.data cs hcs
  rw [← hmk]
  exact this

theorem joinLines_data (ls : List String) :
    (joinLines ls).data = joinCh (ls.map (fun l => l.data)) := rfl

theorem mem_spliceRm {α : Type} {ls : List α} {i n : Nat} {x : α}
    (h : x ∈ spliceRm ls i n) : x ∈ ls := by
  simp only [spliceRm, List.mem_append] at h
  rcases h with h | h
  · exact List.take_subset i ls h
  · exact List.drop_subset (i + n) ls h

theorem spliceRm_length_le {α : Type} (ls : List α) (i n : Nat) :
    (spliceRm ls i n).length ≤ ls.length := by
  simp only [spliceRm, List.length_append, List.length_take, List.length_drop]
  omega

theorem spliceRm_length_lt {α : Type} (ls : List α) (i n : Nat)
    (hi : i < ls.length) (hn : 1 ≤ n) :
    (spliceRm ls i n).length < ls.length := by
  simp only [spliceRm, List.length_append, List.length_take, List.length_drop]
  omega

theorem spliceIns_length {α : Type} (ls : List α) (i : Nat) (xs : List α)
    (hi : i ≤ ls.length) :
    (spliceIns ls i xs).length = ls.length + xs.length := by
  simp only [spliceIns, List.length_append, List.length_take, List.length_drop]
  omega

theorem findBlockAux_bounds (name : String) :
    ∀ (ls : List String) (i : Nat) (st : Option Nat) (s : Nat) (e? : Option Nat),
      (∀ s0, st = some s0 → s0 < i) →
      findBlockAux name ls i st = some (s, e?) →
      s < i + ls.length ∧ ∀ e, e? = some e → s < e ∧ e < i + ls.length := by
  intro ls
  induction ls with
  | nil =>
    intro i st s e? hst h
    cases st with
    | none => simp [findBlockAux] at h
    | some s0 =>
      simp only [findBlockAux, Option.some.injEq, Prod.mk.injEq] at h
      obtain ⟨h1, h2⟩ := h
      subst h1
      refine ⟨by simpa using hst s0 rfl, ?_⟩
      intro e he
      rw [← h2] at he
      exact absurd he (by simp)
  | cons l rest ih =>
    intro i st s e? hst h
    cases hm : resHeaderName? l with
    | none =>
      simp only [findBlockAux, hm] at h
      have := ih (i + 1) st s e? (fun s0 h0 => Nat.lt_succ_of_lt (hst s0 h0)) h
      simp only [List.length_cons]
      constructor
      · have h1 := this.1
        omega
      · intro e he
        have h2 := this.2 e he
        omega
    | some nm =>
      simp only [findBlockAux, hm] at h
      by_cases hn : nm = name
      · rw [if_pos hn] at h
        have := ih (i + 1) (some i) s e?
          (fun s0 h0 => by cases h0; omega) h
        simp only [List.length_cons]
        constructor
        · have h1 := this.1; omega
        · intro e he
          have h2 := this.2 e he; omega
      · rw [if_neg hn] at h
        cases st with
        | some s0 =>
          simp only [Option.some.injEq, Prod.mk.injEq] at h
          obtain ⟨h1, h2⟩ := h
          subst h1
          have hs0 : s0 < i := hst s0 rfl
          simp only [List.length_cons]
          constructor
          · omega
          · intro e he
            rw [← h2] at he
            cases he
            omega
        | none =>
          have := ih (i + 1) none s e? (fun s0 h0 => by cases h0) h
          simp only [List.length_cons]
          constructor
          · have h1 := this.1; omega
          · intro e he
            have h2 := this.2 e he; omega

theorem findBlockROAux_bounds (name : String) :
    ∀ (ls : List String) (i : Nat) (inRes : Bool) (st : Option Nat) (s : Nat)
      (e? : Option Nat),
      (∀ s0, st = some s0 → s0 < i) →
      findBlockROAux name ls i inRes st = some (s, e?) →
      s < i + ls.length ∧ ∀ e, e? = some e → s < e ∧ e < i + ls.length := by
  intro ls
  induction ls with
  | nil =>
    intro i inRes st s e? hst h
    cases st with
    | none => simp [findBlockROAux] at h
    | some s0 =>
      simp only [findBlockROAux, Option.some.injEq, Prod.mk.injEq] at h
      obtain ⟨h1, h2⟩ := h
      subst h1
      refine ⟨by simpa using hst s0 rfl, ?_⟩
      intro e he
      rw [← h2] at he
      exact absurd he (by simp)
  | cons l rest ih =>
    intro i inRes st s e? hst h
    by_cases hres : startsWithS l "Resources:" = true
    · simp only [findBlockROAux, hres, if_true] at h
      have := ih (i + 1) true st s e? (fun s0 h0 => Nat.lt_succ_of_lt (hst s0 h0)) h
      simp only [List.length_cons]
      exact ⟨by have := this.1; omega, fun e he => by have := this.2 e he; omega⟩
    · by_cases hout : startsWithS l "Outputs:" = true
      · simp only [findBlockROAux, hres, hout, if_true, if_false,
          Bool.false_eq_true] at h
        cases st with
        | none => exact absurd h (by simp)
        | some s0 =>
          simp only [Option.some.injEq, Prod.mk.injEq] at h
          obtain ⟨h1, h2⟩ := h
          subst h1
          have hs0 : s0 < i := hst s0 rfl
          simp only [List.length_cons]
          refine ⟨by omega, ?_⟩
          intro e he
          rw [← h2] at he
          cases he
          omega
      · cases inRes with
        | false =>
          simp only [findBlockROAux, hres, hout, Bool.false_eq_true, if_false] at h
          have := ih (i + 1) false st s e? (fun s0 h0 => Nat.lt_succ_of_lt (hst s0 h0)) h
          simp only [List.length_cons]
          exact ⟨by have := this.1; omega, fun e he => by have := this.2 e he; omega⟩
        | true =>
          cases hm : resHeaderName? l with
          | none =>
            simp only [findBlockROAux, hres, hout, hm, Bool.false_eq_true, if_false,
              if_true] at h
            have := ih (i + 1) true st s e?
              (fun s0 h0 => Nat.lt_succ_of_lt (hst s0 h0)) h
            simp only [List.length_cons]
            exact ⟨by have := this.1; omega, fun e he => by have := this.2 e he; omega⟩
          | some nm =>
            simp only [findBlockROAux, hres, hout, hm, Bool.false_eq_true, if_false,
              if_true] at h
            cases st with
            | some s0 =>
              simp only [Option.some.injEq, Prod.mk.injEq] at h
              obtain ⟨h1, h2⟩ := h
              subst h1
              have hs0 : s0 < i := hst s0 rfl
              simp only [List.length_cons]
              refine ⟨by omega, ?_⟩
              intro e he
              rw [← h2] at he
              cases he
              omega
            | none =>
              by_cases hn : nm = name
              · rw [if_pos hn] at h
                have := ih (i + 1) true (some i) s e?
                  (fun s0 h0 => by cases h0; omega) h
                simp only [List.length_cons]
                exact ⟨by have := this.1; omega, fun e he => by have := this.2 e he; omega⟩
              · rw [if_neg hn] at h
                have := ih (i + 1) true none s e? (fun s0 h0 => by cases h0) h
                simp only [List.length_cons]
                exact ⟨by have := this.1; omega, fun e he => by have := this.2 e he; omega⟩

theorem scanEventsAux_ev_bounds :
    ∀ (w : List String) (i : Nat) (ev0 : Option Nat) (c : Nat) (ev : Nat),
      (scanEventsAux w i ev0 c).1 = some ev →
      ev0 = some ev ∨ (i ≤ ev ∧ ev < i + w.length) := by
  intro w
  induction w with
  | nil =>
    intro i ev0 c ev h
    simp only [scanEventsAux] at h
    exact Or.inl h
  | cons l rest ih =>
    intro i ev0 c ev h
    simp only [scanEventsAux] at h
    by_cases hmd : isMetadataLine l = true
    · rw [if_pos hmd] at h
      simp only at h
      by_cases hev : isEventsLine l = true
      · rw [if_pos hev] at h
        cases h
        right
        simp only [List.length_cons]
        omega
      · rw [if_neg hev] at h
        exact Or.inl h
    · rw [if_neg hmd] at h
      have := ih (i + 1) (if isEventsLine l then some i else ev0) _ ev h
      rcases this with h1 | h1
      · by_cases hev : isEventsLine l = true
        · rw [if_pos hev] at h1
          cases h1
          right
          simp only [List.length_cons]
          omega
        · rw [if_neg hev] at h1
          exact Or.inl h1
      · right
        simp only [List.length_cons]
        omega

theorem scanEventsAux_count :
    ∀ (w : List String) (i : Nat) (ev0 : Option Nat) (c0 : Nat),
      (scanEventsAux w i ev0 c0).2.2 =
        c0 + ((w.takeWhile (fun l => !isMetadataLine l)).countP
          (fun l => isEventHeader l)) := by
  intro w
  induction w with
  | nil =>
    intro i ev0 c0
    simp [scanEventsAux]
  | cons l rest ih =>
    intro i ev0 c0
    simp only [scanEventsAux]
    by_cases hmd : isMetadataLine l = true
    · rw [if_pos hmd]
      have hnot : (!isMetadataLine l) = false := by simp [hmd]
      simp only [List.takeWhile_cons, hnot]
      simp
    · rw [if_neg hmd]
      have hnot : (!isMetadataLine l) = true := by simp [hmd]
      simp only [List.takeWhile_cons, hnot, if_true, List.countP_cons]
      rw [ih]
      cases he : eventName? l with
      | none =>
        have hh : isEventHeader l = false := by simp [isEventHeader, he]
        simp [hh]
      | some nm =>
        by_cases h1 : nm = "Type" <;> by_cases h2 : nm = "Properties" <;>
          simp [isEventHeader, he, h1, h2] <;> ring

theorem findBlockAux_append_none (name : String) :
    ∀ (A rest : List String) (i : Nat),
      (∀ l ∈ A, resHeaderName? l ≠ some name) →
      findBlockAux name (A ++ rest) i none = findBlockAux name rest (i + A.length) none := by
  intro A
  induction A with
  | nil =>
    intro rest i _
    simp
  | cons l A ih =>
    intro rest i hA
    have hl := hA l (List.mem_cons_self _ _)
    cases hm : resHeaderName? l with
    | none =>
      simp only [List.cons_append, findBlockAux, hm]
      show findBlockAux name (A ++ rest) (i + 1) none =
        findBlockAux name rest (i + (l :: A).length) none
      rw [ih rest (i + 1) (fun x hx => hA x (List.mem_cons_of_mem _ hx))]
      congr 1
      simp only [List.length_cons]
      omega
    | some nm =>
      have hn : nm ≠ name := by
        intro hh
        exact hl (by rw [hm, hh])
      simp only [List.cons_append, findBlockAux, hm, if_neg hn]
      show findBlockAux name (A ++ rest) (i + 1) none =
        findBlockAux name rest (i + (l :: A).length) none
      rw [ih rest (i + 1) (fun x hx => hA x (List.mem_cons_of_mem _ hx))]
      congr 1
      simp only [List.length_cons]
      omega

theorem findBlockAux_some_state (name : String) :
    ∀ (B : List String) (i s : Nat),
      (∀ l ∈ B, resHeaderName? l ≠ some name) →
      findBlockAux name B i (some s) =
        some (s, (firstIdxP (fun l => isResHeader l) B).map (fun j => i + j)) := by
  intro B
  induction B with
  | nil =>
    intro i s _
    simp [findBlockAux, firstIdxP]
  | cons l B ih =>
    intro i s hB
    cases hm : resHeaderName? l with
    | none =>
      have hh : isResHeader l = false := by simp [isResHeader, hm]
      simp only [findBlockAux, hm, firstIdxP, hh, Bool.false_eq_true, if_false]
      rw [ih (i + 1) s (fun x hx => hB x (List.mem_cons_of_mem _ hx))]
      cases hf : firstIdxP (fun x => isResHeader x) B with
      | none => simp
      | some j =>
        refine congrArg some (Prod.ext rfl ?_)
        show some (i + 1 + j) = some (i + (j + 1))
        congr 1
        omega
    | some nm =>
      have hn : nm ≠ name := by
        intro hh
        exact hB l (List.mem_cons_self _ _) (by rw [hm, hh])
      have hh : isResHeader l = true := by simp [isResHeader, hm]
      simp only [findBlockAux, hm, if_neg hn, firstIdxP, hh, if_true]
      simp

theorem splitLines_joinLines_length (ls : List String)
    (h : ∀ l ∈ ls, '\n' ∉ l.data) :
    (splitLines (joinLines ls)).length = max 1 ls.length := by
  rw [splitLines_length, joinLines_data]
  have hmem : ∀ cs ∈ ls.map (fun l => l.data), '\n' ∉ cs := by
    intro cs hcs
    simp only [List.mem_map] at hcs
    obtain ⟨l, hl, hdata⟩ := hcs
    rw [← hdata]
    exact h l hl
  rw [count_nl_joinCh _ hmem, List.length_map]
  cases ls with
  | nil => simp
  | cons x xs =>
    simp only [List.length_cons]
    omega

theorem splitLines_collapse_joinLines_le (ls : List String)
    (h : ∀ l ∈ ls, '\n' ∉ l.data) :
    (splitLines (collapseNl (joinLines ls))).length ≤ max 1 ls.length := by
  rw [splitLines_length]
  have h1 : (collapseNl (joinLines ls)).data.count '\n' ≤ (joinLines ls).data.count '\n' := by
    have := collapseNlAux_count_le (joinLines ls).data 0
    simpa [collapseNl] using this
  have h2 := splitLines_joinLines_length ls h
  rw [splitLines_length] at h2
  omega

/-!
Claim theorems.
-/

/-- C1: the claim states that environment-variable reconciliation is
idempotent for every .env content, including keys with empty values.  The
code contradicts it: on a template without parameters and an .env holding
the single key B with an empty value, the first run adds the EnvB parameter
and its ParamB SSM resource, and the second run — classifying B as both new
and removed because the empty string is falsy — strips them again, so the
template written by the second run differs from the first run's output
(it equals the original template). -/
theorem C1_reconcile_not_idempotent :
    tplDocC1After ≠ tplDocC1 ∧
    reconcileOnceC1 tplDocC1After ≠ tplDocC1After ∧
    reconcileOnceC1 tplDocC1After = tplDocC1 := by
  refine ⟨by decide, by decide, by decide⟩

/-- C2 counterexample: in a document whose last resource before a non-empty
Outputs: section is bFunction, the locator of deleteLambdaProgrammatically
returns the block [6, 12) whose end is the first Outputs entry — so the
Outputs: header at line 11 lies inside the located range, and deleting that
last resource removes the Outputs: header, contradicting the claim that the
range ends at the Outputs: section start and never covers its header. -/
theorem C2_counterexample :
    findBlock (splitLines docC2) "bFunction" = some (6, some 12) ∧
    getLine (splitLines docC2) 11 = "Outputs:" ∧
    (6 ≤ 11 ∧ 11 < 12) ∧
    ((splitLines docC2).contains "Outputs:" = true) ∧
    ((splitLines (deleteLambdaProgrammatically docC2 "b")).contains "Outputs:" = false) := by
  refine ⟨by decide, by decide, by decide, by decide, by decide⟩

/-- C2 amended: the located resource block ends at the first later line
matching the two-space resource-header pattern — whatever that line is,
including an entry of the Outputs: section — or at end-of-document when no
such line exists; the Outputs: header itself is not a boundary.  Stated for
any document split as lines before the unique header of the target, the
header line, and the lines after it. -/
theorem C2_locator_end_is_next_header (A B : List String) (t name : String)
    (hA : ∀ l ∈ A, resHeaderName? l ≠ some name)
    (ht : resHeaderName? t = some name)
    (hB : ∀ l ∈ B, resHeaderName? l ≠ some name) :
    findBlock (A ++ t :: B) name =
      some (A.length,
        (firstIdxP (fun l => isResHeader l) B).map (fun j => A.length + 1 + j)) := by
  show findBlockAux name (A ++ t :: B) 0 none = _
  rw [findBlockAux_append_none name A (t :: B) 0 hA]
  simp only [findBlockAux, ht, if_pos rfl, Nat.zero_add]
  exact findBlockAux_some_state name B (A.length + 1) A.length hB

/-- C2 witness: the amended locator characterization applied to a concrete
document whose target resource is followed only by an Outputs: section with
one entry — the located end is that entry, past the Outputs: header. -/
theorem C2_locator_witness :
    findBlock (["Resources:"] ++ "  aFunction:" :: ["    Type: X", "Outputs:", "  Url:"])
        "aFunction" =
      some ((["Resources:"] : List String).length,
        (firstIdxP (fun l => isResHeader l) ["    Type: X", "Outputs:", "  Url:"]).map
          (fun j => (["Resources:"] : List String).length + 1 + j)) :=
  C2_locator_end_is_next_header ["Resources:"] ["    Type: X", "Outputs:", "  Url:"]
    "  aFunction:" "aFunction" (by decide) (by decide) (by decide)

/-- C3 counterexample: on the spec-modelled fresh project whose template
carries an Outputs: section with the paired Url output, creating gateway
api2 with endpoint post /test and deleting api2 yields a template that has
lost its Outputs: header (the delete locator swallows it), so it is not
equal to the pre-create template even modulo blank-line normalization. -/
theorem C3_roundtrip_counterexample :
    ((createApiGatewayProgrammatically (freshTemplate true) "api2"
        (some ("post", "/test", "f"))).isOk = true) ∧
    ((splitLines (freshTemplate true)).contains "Outputs:" = true) ∧
    ((splitLines roundTripC3).contains "Outputs:" = false) ∧
    stripBlank roundTripC3 ≠ stripBlank (freshTemplate true) := by
  refine ⟨by decide, by decide, by decide, by decide⟩

/-- C3 amended: the create-then-delete round trip holds on a freshly
generated project only when its template has no Outputs: section; there the
final template is in fact line-identical to the pre-create template, not
merely equal modulo blank lines. -/
theorem C3_roundtrip_no_outputs :
    ((createApiGatewayProgrammatically (freshTemplate false) "api2"
        (some ("post", "/test", "f"))).isOk = true) ∧
    splitLines roundTripC3NoOut = splitLines (freshTemplate false) := by
  refine ⟨by decide, by decide⟩

/-- C4 counterexample: adding the endpoint triple get /a on gateway g to a
Lambda that already carries exactly that triple is not rejected — the
operation succeeds and the template now holds two identical bindings, so
the file is mutated rather than left unchanged with an error. -/
theorem C4_counterexample :
    ((addApiGatewayEndpointProgrammatically docC4 "g" "get" "/a" "f").isOk = true) ∧
    splitLines docC4After ≠ splitLines docC4 ∧
    (splitLines docC4).count "            Path: /a" = 1 ∧
    (splitLines docC4After).count "            Path: /a" = 2 ∧
    (splitLines docC4After).count "            Method: get" = 2 := by
  refine ⟨by decide, by decide, by decide, by decide, by decide⟩

/-- C4 amended: the add-endpoint operation performs no duplicate detection
at all; whenever the target Lambda block is found and it has an Events:
line, the operation returns successfully and splices the six lines of the
new binding right below the Events: line — growing the line array by
exactly six — regardless of which bindings (including identical ones)
already exist.  The update flow shares this property since it ends by
calling the same insertion. -/
theorem C4_no_duplicate_check (doc gw m p lam : String) (s : Nat) (e? : Option Nat)
    (ev : Nat) (md : Option Nat) (c : Nat)
    (hf : findBlock (splitLines doc) (lam ++ "Function") = some (s, e?))
    (hs : scanEvents (splitLines doc) s (e?.getD (splitLines doc).length) = (some ev, md, c)) :
    addApiGatewayEndpointProgrammatically doc gw m p lam =
      .ok (joinLines (spliceIns (splitLines doc) (ev + 1)
        (newEventBlock ("event" ++ toString (c + 1)) (sanitizeName gw) p m))) ∧
    (spliceIns (splitLines doc) (ev + 1)
        (newEventBlock ("event" ++ toString (c + 1)) (sanitizeName gw) p m)).length =
      (splitLines doc).length + 6 := by
  constructor
  · simp only [addApiGatewayEndpointProgrammatically, insertEventCore, hf, hs, Except.map]
  · have hev : ev + 1 ≤ (splitLines doc).length := by
      have h1 : (scanEvents (splitLines doc) s
          (e?.getD (splitLines doc).length)).1 = some ev := by rw [hs]
      have h2 := scanEventsAux_ev_bounds
        (((splitLines doc).drop s).take (e?.getD (splitLines doc).length - s))
        s none 0 ev h1
      rcases h2 with h2 | h2
      · exact absurd h2 (by simp)
      · have h3 : (((splitLines doc).drop s).take
            (e?.getD (splitLines doc).length - s)).length ≤
            (splitLines doc).length - s := by
          simp only [List.length_take, List.length_drop]
          omega
        omega
    rw [spliceIns_length _ _ _ hev]
    simp [newEventBlock]

/-- C4 witness: the no-duplicate-check theorem applied to docC4 (Lambda
found at line 1 with no later header, Events: line at 5, one counted
binding). -/
theorem C4_witness :
    addApiGatewayEndpointProgrammatically docC4 "g2" "post" "/dup" "f" =
      .ok (joinLines (spliceIns (splitLines docC4) (5 + 1)
        (newEventBlock ("event" ++ toString (1 + 1)) (sanitizeName "g2") "/dup" "post"))) ∧
    (spliceIns (splitLines docC4) (5 + 1)
        (newEventBlock ("event" ++ toString (1 + 1)) (sanitizeName "g2") "/dup" "post")).length =
      (splitLines docC4).length + 6 :=
  C4_no_duplicate_check docC4 "g2" "post" "/dup" "f" 1 none 5 (some 12) 1
    (by decide) (by decide)

/-- C5 counterexample: docC5 has a Function whose Layers: list references
layer l1, yet the delete-layer operation removes the l1 resource block
anyway — the template is mutated, no error is raised, and the dangling
reference line survives. -/
theorem C5_counterexample :
    ((splitLines docC5).contains "        - !Ref l1" = true) ∧
    ((splitLines docC5).contains "  l1:" = true) ∧
    splitLines (deleteLayerProgrammatically docC5 "l1") ≠ splitLines docC5 ∧
    ((splitLines (deleteLayerProgrammatically docC5 "l1")).contains "  l1:" = false) ∧
    ((splitLines (deleteLayerProgrammatically docC5 "l1")).contains
      "        - !Ref l1" = true) := by
  refine ⟨by decide, by decide, by decide, by decide, by decide⟩

/-- C5 amended: the delete-layer operation performs no reference check:
whenever its locator finds the layer block, the template shrinks — the
written document has strictly fewer lines than the input — regardless of
any Function Layers: references, and no error is reported. -/
theorem C5_delete_layer_no_guard (doc layerName : String) (s : Nat) (e? : Option Nat)
    (h : findBlockRO (splitLines doc) layerName = some (s, e?))
    (h2 : 2 ≤ (splitLines doc).length) :
    (splitLines (deleteLayerProgrammatically doc layerName)).length <
      (splitLines doc).length := by
  have hb := findBlockROAux_bounds layerName (splitLines doc) 0 false none s e?
    (fun s0 h0 => by cases h0) h
  have hs : s < (splitLines doc).length := by have := hb.1; omega
  have he : s < e?.getD (splitLines doc).length ∧
      e?.getD (splitLines doc).length ≤ (splitLines doc).length := by
    cases e? with
    | none => simp [Option.getD, hs]
    | some e =>
      have := hb.2 e rfl
      simp only [Option.getD]
      omega
  simp only [deleteLayerProgrammatically, h]
  have hlen : (spliceRm (splitLines doc) s (e?.getD (splitLines doc).length - s)).length <
      (splitLines doc).length := by
    apply spliceRm_length_lt _ _ _ hs
    omega
  have hnn : ∀ l ∈ spliceRm (splitLines doc) s (e?.getD (splitLines doc).length - s),
      '\n' ∉ l.data := fun l hl => splitLines_no_nl doc l (mem_spliceRm hl)
  have := splitLines_joinLines_length _ hnn
  rw [this]
  omega

/-- C5 witness: the no-guard theorem applied to docC5, whose layer l1 is
located at lines [8, 15) while a Function still references it. -/
theorem C5_witness :
    (splitLines (deleteLayerProgrammatically docC5 "l1")).length <
      (splitLines docC5).length :=
  C5_delete_layer_no_guard docC5 "l1" 8 (some 15) (by decide) (by decide)

/-- C6 counterexample: docC6 contains exactly one serverless Function and
the delete-Lambda operation removes it, leaving zero Functions — the claim
that every delete leaves at least one Lambda fails. -/
theorem C6_counterexample :
    countFunctionLines docC6 = 1 ∧
    countFunctionLines (deleteLambdaProgrammatically docC6 "f") = 0 := by
  refine ⟨by decide, by decide⟩

/-- C6 amended: the delete-Lambda operation enforces no minimum count:
whenever its locator finds the Function block, the written template has
strictly fewer lines than the input, however many Functions remain — in
particular it deletes the only Lambda of a project. -/
theorem C6_delete_lambda_no_guard (doc lambdaName : String) (s : Nat) (e? : Option Nat)
    (h : findBlock (splitLines doc) (lambdaName ++ "Function") = some (s, e?))
    (h2 : 2 ≤ (splitLines doc).length) :
    (splitLines (deleteLambdaProgrammatically doc lambdaName)).length <
      (splitLines doc).length := by
  have hb := findBlockAux_bounds (lambdaName ++ "Function") (splitLines doc) 0 none s e?
    (fun s0 h0 => by cases h0) h
  have hs : s < (splitLines doc).length := by have := hb.1; omega
  have he : s < e?.getD (splitLines doc).length ∧
      e?.getD (splitLines doc).length ≤ (splitLines doc).length := by
    cases e? with
    | none => simp [Option.getD, hs]
    | some e =>
      have := hb.2 e rfl
      simp only [Option.getD]
      omega
  simp only [deleteLambdaProgrammatically, h]
  set lines1 := spliceRm (splitLines doc) s (e?.getD (splitLines doc).length - s) with hl1
  have hlen1 : lines1.length < (splitLines doc).length := by
    apply spliceRm_length_lt _ _ _ hs
    omega
  have hnn1 : ∀ l ∈ lines1, '\n' ∉ l.data :=
    fun l hl => splitLines_no_nl doc l (mem_spliceRm hl)
  set lines2 := (match findBlock lines1 (lambdaName ++ "Function" ++ "LogGroup") with
    | some (s2, endOpt2) => spliceRm lines1 s2 (endOpt2.getD lines1.length - s2)
    | none => lines1) with hl2
  have hlen2 : lines2.length ≤ lines1.length := by
    rw [hl2]
    cases findBlock lines1 (lambdaName ++ "Function" ++ "LogGroup") with
    | none => exact Nat.le_refl _
    | some pr =>
      cases pr with
      | mk s2 e2 => exact spliceRm_length_le _ _ _
  have hnn2 : ∀ l ∈ lines2, '\n' ∉ l.data := by
    rw [hl2]
    cases findBlock lines1 (lambdaName ++ "Function" ++ "LogGroup") with
    | none => exact hnn1
    | some pr =>
      cases pr with
      | mk s2 e2 => exact fun l hl => hnn1 l (mem_spliceRm hl)
  have hfin := splitLines_collapse_joinLines_le lines2 hnn2
  omega

/-- C6 witness: the no-guard theorem applied to docC6, whose only Function
block sits at lines [1, 6). -/
theorem C6_witness :
    (splitLines (deleteLambdaProgrammatically docC6 "f")).length <
      (splitLines docC6).length :=
  C6_delete_lambda_no_guard docC6 "f" 1 (some 6) (by decide) (by decide)

/-- C7 counterexample: the Api resource of docC7 already carries an Auth:
sub-block, yet adding Cognito auth succeeds and splices a second Auth:
right after Properties:, so the Api block located at [1, 17) afterwards
holds two Auth: lines — the at-most-one-Auth invariant is not preserved by
the Cognito path. -/
theorem C7_counterexample :
    ((addCognitoAuthProgrammatically docC7 "gApi" "pool2").isOk = true) ∧
    (splitLines docC7).count "      Auth:" = 1 ∧
    (splitLines docC7After).count "      Auth:" = 2 ∧
    findBlockRO (splitLines docC7After) "gApi" = some (1, some 17) ∧
    (((splitLines docC7After).drop 1).take 16).count "      Auth:" = 2 := by
  refine ⟨by decide, by decide, by decide, by decide, by decide⟩

/-- C7 amended: only the Basic-auth path guards the invariant — whenever
the shared authorizer Function already exists and the located Api block
already contains an Auth line, adding Basic auth returns the document
unchanged.  The Cognito path performs no such check (see the
counterexample). -/
theorem C7_basic_auth_existing_is_noop (doc gw : String) (s : Nat) (e? : Option Nat)
    (hA : (splitLines doc).any (fun l => containsS l "BasicAuthorizerFunction:") = true)
    (hf : findBlockRO (splitLines doc) (sanitizeName gw) = some (s, e?))
    (hAuth : sliceAny (splitLines doc) s (e?.getD (splitLines doc).length)
      (fun l => isAuthLine l) = true) :
    addBasicAuthProgrammatically doc gw = .ok doc := by
  simp only [addBasicAuthProgrammatically, hA, if_true, joinLines_splitLines, hf, hAuth]

/-- C7 witness: the no-op theorem applied to docC7w, which holds the shared
authorizer Function and whose Api block [1, 8) holds an Auth line. -/
theorem C7_witness :
    addBasicAuthProgrammatically docC7w "gApi" = .ok docC7w :=
  C7_basic_auth_existing_is_noop docC7w "gApi" 1 (some 8)
    (by decide) (by decide) (by decide)

/-- C8 counterexample: the Lambda of docC8 holds exactly one event binding
(event1) but also an Environment/Variables: sub-block whose Variables: line
matches the eight-space header pattern; the add counts 2 and names the new
binding event3 rather than event2. -/
theorem C8_counterexample :
    ((addApiGatewayEndpointProgrammatically docC8 "g" "post" "/x" "f").isOk = true) ∧
    (splitLines docC8).count "        event1:" = 1 ∧
    (splitLines docC8).count "        Variables:" = 1 ∧
    (splitLines docC8After).count "        event3:" = 1 ∧
    (splitLines docC8After).count "        event2:" = 0 := by
  refine ⟨by decide, by decide, by decide, by decide, by decide⟩

/-- C8 amended: the count k used to name the new binding event(k+1) is not
the number of event bindings of the Events: block — it is the number of
lines of the whole Lambda block window (cut at the first Metadata: line)
matching the eight-space header pattern with a name other than Type or
Properties, which also matches unrelated lines such as the Variables:
header of an Environment sub-block. -/
theorem C8_event_number_counts_header_pattern (doc gw m p lam : String) (s : Nat)
    (e? : Option Nat) (ev : Nat) (md : Option Nat) (c : Nat)
    (hf : findBlock (splitLines doc) (lam ++ "Function") = some (s, e?))
    (hs : scanEvents (splitLines doc) s (e?.getD (splitLines doc).length) = (some ev, md, c)) :
    c = ((((splitLines doc).drop s).take (e?.getD (splitLines doc).length - s)).takeWhile
          (fun l => !isMetadataLine l)).countP (fun l => isEventHeader l) ∧
    addApiGatewayEndpointProgrammatically doc gw m p lam =
      .ok (joinLines (spliceIns (splitLines doc) (ev + 1)
        (newEventBlock ("event" ++ toString (c + 1)) (sanitizeName gw) p m))) := by
  constructor
  · have h1 : (scanEvents (splitLines doc) s (e?.getD (splitLines doc).length)).2.2 = c := by
      rw [hs]
    rw [scanEvents] at h1
    rw [scanEventsAux_count] at h1
    omega
  · simp only [addApiGatewayEndpointProgrammatically, insertEventCore, hf, hs, Except.map]

/-- C8 witness: the naming theorem applied to docC8, whose Lambda block
starts at line 1 with no later header, Events: at line 8, Metadata: at line
15 and raw header count 2 (event1 plus the Variables: line). -/
theorem C8_witness :
    2 = ((((splitLines docC8).drop 1).take
          ((none : Option Nat).getD (splitLines docC8).length - 1)).takeWhile
          (fun l => !isMetadataLine l)).countP (fun l => isEventHeader l) ∧
    addApiGatewayEndpointProgrammatically docC8 "g2" "get" "/y" "f" =
      .ok (joinLines (spliceIns (splitLines docC8) (8 + 1)
        (newEventBlock ("event" ++ toString (2 + 1)) (sanitizeName "g2") "/y" "get"))) :=
  C8_event_number_counts_header_pattern docC8 "g2" "get" "/y" "f" 1 none 8 (some 15) 2
    (by decide) (by decide)

/-- C9 counterexample: updating get /a to get /c on the same Lambda f of
docC9 does not rewrite the binding in place — event1 disappears and the
document afterwards holds two bindings named event2. -/
theorem C9_counterexample :
    ((updateApiGatewayEndpointProgrammatically docC9 "g" "get" "/a" "f" "get" "/c" "f").isOk
      = true) ∧
    (splitLines docC9).count "        event1:" = 1 ∧
    (splitLines docC9).count "        event2:" = 1 ∧
    (splitLines docC9After).count "        event1:" = 0 ∧
    (splitLines docC9After).count "        event2:" = 2 := by
  refine ⟨by decide, by decide, by decide, by decide, by decide⟩

/-- C9 amended: the update operation is always delete-then-add, also when
the source and target Lambda coincide: on docC9 the old event1 binding is
removed, and the replacement is renamed event2 (from the recomputed count)
and spliced at the head of the Events: block, before the untouched original
event2 — the full resulting line list is characterized exactly. -/
theorem C9_update_is_delete_then_add :
    splitLines docC9After =
      ["Resources:",
       "  fFunction:",
       "    Type: AWS::Serverless::Function",
       "    Properties:",
       "      Handler: f/handler.f",
       "      Timeout: 60",
       "      Events:",
       "        event2:",
       "          Type: Api",
       "          Properties:",
       "            RestApiId: !Ref g",
       "            Path: /c",
       "            Method: get",
       "        event2:",
       "          Type: Api",
       "          Properties:",
       "            RestApiId: !Ref g",
       "            Path: /b",
       "            Method: post",
       "    Metadata:",
       "      BuildMethod: esbuild",
       ""] := by
  decide

/-- C10: every gateway operation addresses the Api resource only through
the normalized name obtained by deleting every non-alphanumeric character,
so two gateway-name strings with equal normalizations are interchangeable
in create, delete, add-endpoint, update-endpoint, add-basic-auth,
add-cognito-auth and remove-basic-auth. -/
theorem C10_sanitized_name_addressing (s t : String)
    (h : sanitizeName s = sanitizeName t) :
    (∀ doc ep, createApiGatewayProgrammatically doc s ep =
      createApiGatewayProgrammatically doc t ep) ∧
    (∀ doc, deleteApiGatewayProgrammatically doc s =
      deleteApiGatewayProgrammatically doc t) ∧
    (∀ doc m p lam, addApiGatewayEndpointProgrammatically doc s m p lam =
      addApiGatewayEndpointProgrammatically doc t m p lam) ∧
    (∀ doc om op olam nm np nlam,
      updateApiGatewayEndpointProgrammatically doc s om op olam nm np nlam =
      updateApiGatewayEndpointProgrammatically doc t om op olam nm np nlam) ∧
    (∀ doc, addBasicAuthProgrammatically doc s =
      addBasicAuthProgrammatically doc t) ∧
    (∀ doc pool, addCognitoAuthProgrammatically doc s pool =
      addCognitoAuthProgrammatically doc t pool) ∧
    (∀ doc, removeBasicAuthProgrammatically doc s =
      removeBasicAuthProgrammatically doc t) := by
  refine ⟨fun doc ep => ?_, fun doc => ?_, fun doc m p lam => ?_,
    fun doc om op olam nm np nlam => ?_, fun doc => ?_, fun doc pool => ?_,
    fun doc => ?_⟩
  · simp only [createApiGatewayProgrammatically, h]
  · simp only [deleteApiGatewayProgrammatically, h]
  · simp only [addApiGatewayEndpointProgrammatically, h]
  · simp only [updateApiGatewayEndpointProgrammatically,
      addApiGatewayEndpointProgrammatically, h]
  · simp only [addBasicAuthProgrammatically, h]
  · simp only [addCognitoAuthProgrammatically, h]
  · simp only [removeBasicAuthProgrammatically, h]

/-- C10 witness: the addressing theorem applied to the names api-2! and
api2, whose normalizations agree, on the concrete document docC2. -/
theorem C10_witness :
    deleteApiGatewayProgrammatically docC2 "api-2!" =
      deleteApiGatewayProgrammatically docC2 "api2" ∧
    updateApiGatewayEndpointProgrammatically docC9 "g_!" "get" "/a" "f" "get" "/c" "f" =
      updateApiGatewayEndpointProgrammatically docC9 "g" "get" "/a" "f" "get" "/c" "f" ∧
    addCognitoAuthProgrammatically docC7 "g.Api" "pool2" =
      addCognitoAuthProgrammatically docC7 "gApi" "pool2" :=
  ⟨(C10_sanitized_name_addressing "api-2!" "api2" (by decide)).2.1 docC2,
   (C10_sanitized_name_addressing "g_!" "g" (by decide)).2.2.2.1
     docC9 "get" "/a" "f" "get" "/c" "f",
   (C10_sanitized_name_addressing "g.Api" "gApi" (by decide)).2.2.2.2.2.1
     docC7 "pool2"⟩

end SamSmith
